import Mathlib

/-!
Shallow embedding of the CHIP-8 interpreter core (`src/chip8/emu.rs`) and
proofs about its instruction semantics.

Conventions of the embedding:
* machine integers are `Nat` with an explicit `% 2^w` exactly where the Rust
  code relies on wrapping (`wrapping_add`, `wrapping_sub`, `u8` shift-left);
* the fixed-size arrays (`ram`, `v`, `stack`, `gfx`, `keys`) are total
  functions from indices; writes are pointwise functional updates;
* fallible code is `Option`/`Except`: the `panic!` in `load_rom` becomes
  `Except.error`, the `panic!` for an unknown opcode makes the dispatcher
  return `none`;
* the single use of `rand::random::<u8>()` (opcode CXNN) is modelled by
  passing the random byte as an explicit argument to the dispatcher.
-/

namespace Chip8

/-- `GFX_W` from `mod.rs`. -/
def GFX_W : Nat := 128

/-- `GFX_H` from `mod.rs`. -/
def GFX_H : Nat := 64

/-- `RAM_SIZE` constant. -/
def RAM_SIZE : Nat := 4096

/-- `PROGRAM_START` constant. -/
def PROGRAM_START : Nat := 512

/-- `MAX_ROM_SIZE = RAM_SIZE - PROGRAM_START`. -/
def MAX_ROM_SIZE : Nat := RAM_SIZE - PROGRAM_START

/-- `STACK_SIZE` constant. -/
def STACK_SIZE : Nat := 16

/-- The 80-byte font table `FONT_MAP`. -/
def FONT_MAP : List Nat :=
  [0xf0, 0x90, 0x90, 0x90, 0xf0,
   0x20, 0x60, 0x20, 0x20, 0x70,
   0xf0, 0x10, 0xf0, 0x80, 0xf0,
   0xf0, 0x10, 0xf0, 0x10, 0xf0,
   0x90, 0x90, 0xf0, 0x10, 0x10,
   0xf0, 0x80, 0xf0, 0x10, 0xf0,
   0xf0, 0x80, 0xf0, 0x90, 0xf0,
   0xf0, 0x10, 0x20, 0x40, 0x40,
   0xf0, 0x90, 0xf0, 0x90, 0xf0,
   0xf0, 0x90, 0xf0, 0x10, 0xf0,
   0xf0, 0x90, 0xf0, 0x90, 0x90,
   0xe0, 0x90, 0xe0, 0x90, 0xe0,
   0xf0, 0x80, 0x80, 0x80, 0xf0,
   0xe0, 0x90, 0x90, 0x90, 0xe0,
   0xf0, 0x80, 0xf0, 0x80, 0xf0,
   0xf0, 0x80, 0xf0, 0x80, 0x80]

/-- The machine state, mirroring `struct Emu` field for field. -/
structure Emu where
  gfx : Nat → Nat → Bool
  keys : Nat → Bool
  draw : Bool
  opcode : Nat
  ram : Nat → Nat
  v : Nat → Nat
  ram_idx : Nat
  pc : Nat
  dt : Nat
  st : Nat
  stack : Nat → Nat
  sp : Nat
  rom : List Nat

/-- `Default for Emu`: everything zeroed except the font table copied into
the bottom of ram and `pc = PROGRAM_START`. -/
def Emu.new : Emu where
  gfx := fun _ _ => false
  keys := fun _ => false
  draw := false
  opcode := 0
  ram := fun i => if i < FONT_MAP.length then FONT_MAP.getD i 0 else 0
  v := fun _ => 0
  ram_idx := 0
  pc := PROGRAM_START
  dt := 0
  st := 0
  stack := fun _ => 0
  sp := 0
  rom := []

/-- `u8::wrapping_add` on byte values. -/
def wrapping_add8 (a b : Nat) : Nat := (a + b) % 256

/-- `u8::wrapping_sub` on byte values (operands are `u8`, i.e. `< 256`). -/
def wrapping_sub8 (a b : Nat) : Nat := (a + 256 - b) % 256

/-- The copy loop of `load_rom`: `ram[PROGRAM_START+i] = rom[i]` for
`i < k`, reading from the cached rom field, as the source does. -/
def load_rom_copy (s : Emu) (k : Nat) : Emu :=
  (List.range k).foldl
    (fun acc i =>
      { acc with ram := fun a =>
          if a = PROGRAM_START + i then acc.rom.getD i 0 else acc.ram a })
    s

/-- `load_rom`: reject images over `MAX_ROM_SIZE` (the Rust code panics with
this message), otherwise cache the rom and copy it into ram at
`PROGRAM_START`. -/
def Emu.load_rom (s : Emu) (rom : List Nat) : Except String Emu :=
  if rom.length > MAX_ROM_SIZE then
    Except.error "Program too large to fit into memory"
  else
    Except.ok (load_rom_copy { s with rom := rom } rom.length)

/-- `reset`: replace the state with a fresh machine and reload the cached
rom. -/
def Emu.reset (s : Emu) : Except String Emu :=
  Emu.new.load_rom s.rom

/-- `update_timers`. -/
def Emu.update_timers (s : Emu) : Emu :=
  let s1 := if s.dt > 0 then { s with dt := s.dt - 1 } else s
  if s1.st > 0 then { s1 with st := s1.st - 1 } else s1

/-- `beeping`. -/
def Emu.beeping (s : Emu) : Bool := s.st > 0

/-- Opcode 00E0: clear screen. -/
def execute_opcode_00e0 (s : Emu) : Emu :=
  { s with gfx := fun x y => if x < GFX_W ∧ y < GFX_H then false else s.gfx x y,
           draw := true,
           pc := s.pc + 2 }

/-- Opcode 00EE: return from last subroutine. -/
def execute_opcode_00ee (s : Emu) : Emu :=
  { s with sp := s.sp - 1,
           pc := s.stack (s.sp - 1) + 2 }

/-- Opcode 1NNN: jump to address nnn. -/
def execute_opcode_1nnn (s : Emu) : Emu :=
  { s with pc := s.opcode &&& 0x0fff }

/-- Opcode 2NNN: call subroutine at nnn. -/
def execute_opcode_2nnn (s : Emu) : Emu :=
  { s with stack := fun i => if i = s.sp then s.pc else s.stack i,
           sp := s.sp + 1,
           pc := s.opcode &&& 0x0fff }

/-- Opcode 3XNN: skip the next instruction if vx equals nn. -/
def execute_opcode_3xnn (s : Emu) : Emu :=
  let x := (s.opcode &&& 0x0f00) >>> 8
  let nn := s.opcode &&& 0x00ff
  { s with pc := s.pc + (if s.v x = nn then 4 else 2) }

/-- Opcode 4XNN: skip the next instruction if vx does not equal nn. -/
def execute_opcode_4xnn (s : Emu) : Emu :=
  let x := (s.opcode &&& 0x0f00) >>> 8
  let nn := s.opcode &&& 0x00ff
  { s with pc := s.pc + (if s.v x ≠ nn then 4 else 2) }

/-- Opcode 5XY0: skip the next instruction if vx equals vy. -/
def execute_opcode_5xy0 (s : Emu) : Emu :=
  let x := (s.opcode &&& 0x0f00) >>> 8
  let y := (s.opcode &&& 0x00f0) >>> 4
  { s with pc := s.pc + (if s.v x = s.v y then 4 else 2) }

/-- Opcode 6XNN: set vx to nn. -/
def execute_opcode_6xnn (s : Emu) : Emu :=
  let x := (s.opcode &&& 0x0f00) >>> 8
  let nn := s.opcode &&& 0x00ff
  { s with v := fun i => if i = x then nn else s.v i,
           pc := s.pc + 2 }

/-- Opcode 7XNN: add nn to vx (wrapping, no flag). -/
def execute_opcode_7xnn (s : Emu) : Emu :=
  let x := (s.opcode &&& 0x0f00) >>> 8
  let nn := s.opcode &&& 0x00ff
  { s with v := fun i => if i = x then wrapping_add8 (s.v x) nn else s.v i,
           pc := s.pc + 2 }

/-- Opcode 8XY0: set vx to the value of vy. -/
def execute_opcode_8xy0 (s : Emu) : Emu :=
  let x := (s.opcode &&& 0x0f00) >>> 8
  let y := (s.opcode &&& 0x00f0) >>> 4
  { s with v := fun i => if i = x then s.v y else s.v i,
           pc := s.pc + 2 }

/-- Opcode 8XY1: set vx to vx OR vy. -/
def execute_opcode_8xy1 (s : Emu) : Emu :=
  let x := (s.opcode &&& 0x0f00) >>> 8
  let y := (s.opcode &&& 0x00f0) >>> 4
  { s with v := fun i => if i = x then s.v x ||| s.v y else s.v i,
           pc := s.pc + 2 }

/-- Opcode 8XY2: set vx to vx AND vy. -/
def execute_opcode_8xy2 (s : Emu) : Emu :=
  let x := (s.opcode &&& 0x0f00) >>> 8
  let y := (s.opcode &&& 0x00f0) >>> 4
  { s with v := fun i => if i = x then s.v x &&& s.v y else s.v i,
           pc := s.pc + 2 }

/-- Opcode 8XY3: set vx to vx XOR vy. -/
def execute_opcode_8xy3 (s : Emu) : Emu :=
  let x := (s.opcode &&& 0x0f00) >>> 8
  let y := (s.opcode &&& 0x00f0) >>> 4
  { s with v := fun i => if i = x then s.v x ^^^ s.v y else s.v i,
           pc := s.pc + 2 }

/-- Opcode 8XY4: add vy to vx; vf is 1 iff there was a carry.  The Rust code
stores the wrapped sum first and then compares the stored value against the
unmodified `vy`. -/
def execute_opcode_8xy4 (s : Emu) : Emu :=
  let x := (s.opcode &&& 0x0f00) >>> 8
  let y := (s.opcode &&& 0x00f0) >>> 4
  let vx := s.v x
  let vy := s.v y
  let v1 := fun i => if i = x then wrapping_add8 vx vy else s.v i
  let carried := v1 x < vy
  { s with v := fun i => if i = 0xf then (if carried then 1 else 0) else v1 i,
           pc := s.pc + 2 }

/-- Opcode 8XY5: subtract vy from vx; vf is 0 iff there was a borrow. -/
def execute_opcode_8xy5 (s : Emu) : Emu :=
  let x := (s.opcode &&& 0x0f00) >>> 8
  let y := (s.opcode &&& 0x00f0) >>> 4
  let vx := s.v x
  let vy := s.v y
  let v1 := fun i => if i = x then wrapping_sub8 vx vy else s.v i
  let borrowed := vy > vx
  { s with v := fun i => if i = 0xf then (if borrowed then 0 else 1) else v1 i,
           pc := s.pc + 2 }

/-- Opcode 8XY6, the unused "original interpreter" variant
(`execute_opcode_8xy6_orig_not_used`): vf gets the low bit of vy, then vx
gets vy shifted right; the second read of `v[y]` happens after the vf
write. -/
def execute_opcode_8xy6_orig (s : Emu) : Emu :=
  let x := (s.opcode &&& 0x0f00) >>> 8
  let y := (s.opcode &&& 0x00f0) >>> 4
  let v1 := fun i => if i = 0xf then s.v y &&& 0x01 else s.v i
  { s with v := fun i => if i = x then v1 y >>> 1 else v1 i,
           pc := s.pc + 2 }

/-- Opcode 8XY6, the dispatched "revised" variant: vf gets the low bit of
vx, then vx is shifted right in place. -/
def execute_opcode_8xy6 (s : Emu) : Emu :=
  let x := (s.opcode &&& 0x0f00) >>> 8
  let v1 := fun i => if i = 0xf then s.v x &&& 0x01 else s.v i
  { s with v := fun i => if i = x then v1 x >>> 1 else v1 i,
           pc := s.pc + 2 }

/-- Opcode 8XY7: set vx to vy minus vx; vf is 0 iff there was a borrow. -/
def execute_opcode_8xy7 (s : Emu) : Emu :=
  let x := (s.opcode &&& 0x0f00) >>> 8
  let y := (s.opcode &&& 0x00f0) >>> 4
  let vx := s.v x
  let vy := s.v y
  let v1 := fun i => if i = x then wrapping_sub8 vy vx else s.v i
  let borrowed := vx > vy
  { s with v := fun i => if i = 0xf then (if borrowed then 0 else 1) else v1 i,
           pc := s.pc + 2 }

/-- Opcode 8XYE, the unused "original interpreter" variant
(`execute_opcode_8xye_orig_not_used`): vf gets the LOW bit of vy (as in the
source, line `self.v[0x0f] = self.v[y as usize] & 0x01;`), then vx gets vy
shifted left (u8, so the result wraps mod 256). -/
def execute_opcode_8xye_orig (s : Emu) : Emu :=
  let x := (s.opcode &&& 0x0f00) >>> 8
  let y := (s.opcode &&& 0x00f0) >>> 4
  let v1 := fun i => if i = 0xf then s.v y &&& 0x01 else s.v i
  { s with v := fun i => if i = x then (v1 y <<< 1) % 256 else v1 i,
           pc := s.pc + 2 }

/-- Opcode 8XYE, the dispatched "revised" variant.  NOTE: the source sets
`v[0xf] = v[x] & 0x01` — the LEAST significant bit — although its own
comment says the flag should be the most significant bit of vx. -/
def execute_opcode_8xye (s : Emu) : Emu :=
  let x := (s.opcode &&& 0x0f00) >>> 8
  let v1 := fun i => if i = 0xf then s.v x &&& 0x01 else s.v i
  { s with v := fun i => if i = x then (v1 x <<< 1) % 256 else v1 i,
           pc := s.pc + 2 }

/-- Opcode 9XY0: skip the next instruction if vx does not equal vy. -/
def execute_opcode_9xy0 (s : Emu) : Emu :=
  let x := (s.opcode &&& 0x0f00) >>> 8
  let y := (s.opcode &&& 0x00f0) >>> 4
  { s with pc := s.pc + (if s.v x ≠ s.v y then 4 else 2) }

/-- Opcode ANNN: set ram_idx to the address nnn. -/
def execute_opcode_annn (s : Emu) : Emu :=
  { s with ram_idx := s.opcode &&& 0x0fff,
           pc := s.pc + 2 }

/-- Opcode BNNN: jump to the address nnn plus v0. -/
def execute_opcode_bnnn (s : Emu) : Emu :=
  { s with pc := (s.opcode &&& 0x0fff) + s.v 0 }

/-- Opcode CXNN: set vx to a random byte AND nn.  The random byte produced
by `rand::random::<u8>()` is the explicit argument `rnd`. -/
def execute_opcode_cxnn (rnd : Nat) (s : Emu) : Emu :=
  let x := (s.opcode &&& 0x0f00) >>> 8
  let nn := s.opcode &&& 0x00ff
  { s with v := fun i => if i = x then rnd &&& nn else s.v i,
           pc := s.pc + 2 }

/-- One iteration of the inner (x-offset) loop of opcode DXYN: XOR one
sprite bit onto the display, recording collision in vf and newly lit pixels
in the draw flag. -/
def drawPixelStep (startX startY yo sprt_row : Nat) (s : Emu) (xo : Nat) : Emu :=
  let gfx_x := (startX + xo) % GFX_W
  let gfx_y := (startY + yo) % GFX_H
  let mask := 128 >>> xo
  let sprt_pix : Bool := sprt_row &&& mask != 0
  let gfx_pix := s.gfx gfx_x gfx_y
  let gfx_pix_after := xor gfx_pix sprt_pix
  if gfx_pix != gfx_pix_after then
    if gfx_pix_after then
      { s with gfx := fun a b => if a = gfx_x ∧ b = gfx_y then gfx_pix_after else s.gfx a b,
               draw := true }
    else
      { s with gfx := fun a b => if a = gfx_x ∧ b = gfx_y then gfx_pix_after else s.gfx a b,
               v := fun i => if i = 0xf then 1 else s.v i }
  else s

/-- One iteration of the outer (y-offset) loop of opcode DXYN: read the
sprite row byte and XOR its 8 pixels onto the display. -/
def drawRowStep (startX startY : Nat) (s : Emu) (yo : Nat) : Emu :=
  let sprt_row := s.ram (s.ram_idx + yo)
  (List.range 8).foldl (drawPixelStep startX startY yo sprt_row) s

/-- Opcode DXYN: draw an n-row sprite at (vx, vy).  The start coordinates
are read before vf is zeroed, exactly as in the source. -/
def execute_opcode_dxyn (s : Emu) : Emu :=
  let gfx_start_x := s.v ((s.opcode &&& 0x0f00) >>> 8)
  let gfx_start_y := s.v ((s.opcode &&& 0x00f0) >>> 4)
  let sprt_h := s.opcode &&& 0x000f
  let s1 := { s with v := fun i => if i = 0xf then 0 else s.v i }
  let s2 := (List.range sprt_h).foldl (drawRowStep gfx_start_x gfx_start_y) s1
  { s2 with pc := s2.pc + 2 }

/-- Opcode EX9E: skip the next instruction if the key stored in vx is
pressed. -/
def execute_opcode_ex9e (s : Emu) : Emu :=
  let x := (s.opcode &&& 0x0f00) >>> 8
  { s with pc := s.pc + (if s.keys (s.v x) then 4 else 2) }

/-- Opcode EXA1: skip the next instruction if the key stored in vx is not
pressed. -/
def execute_opcode_exa1 (s : Emu) : Emu :=
  let x := (s.opcode &&& 0x0f00) >>> 8
  { s with pc := s.pc + (if ¬ s.keys (s.v x) then 4 else 2) }

/-- Opcode FX07: set vx to the value of the delay timer. -/
def execute_opcode_fx07 (s : Emu) : Emu :=
  let x := (s.opcode &&& 0x0f00) >>> 8
  { s with v := fun i => if i = x then s.dt else s.v i,
           pc := s.pc + 2 }

/-- Opcode FX0A: wait for a keypress then store it in vx.  The source scans
all 16 keys without a `break`, so EVERY pressed key stores its index and
bumps pc by 2. -/
def execute_opcode_fx0a (s : Emu) : Emu :=
  let x := (s.opcode &&& 0x0f00) >>> 8
  (List.range 16).foldl
    (fun acc i =>
      if acc.keys i then
        { acc with v := fun j => if j = x then i else acc.v j,
                   pc := acc.pc + 2 }
      else acc)
    s

/-- Opcode FX15: set the delay timer to vx. -/
def execute_opcode_fx15 (s : Emu) : Emu :=
  let x := (s.opcode &&& 0x0f00) >>> 8
  { s with dt := s.v x, pc := s.pc + 2 }

/-- Opcode FX18: set the sound timer to vx. -/
def execute_opcode_fx18 (s : Emu) : Emu :=
  let x := (s.opcode &&& 0x0f00) >>> 8
  { s with st := s.v x, pc := s.pc + 2 }

/-- Opcode FX1E: add vx to ram_idx; vf is 1 iff the sum exceeds 0xfff; the
index register is reduced mod 0x1000 either way. -/
def execute_opcode_fx1e (s : Emu) : Emu :=
  let x := (s.opcode &&& 0x0f00) >>> 8
  let sum := s.ram_idx + s.v x
  let overflowed := sum > 0x0fff
  { s with v := fun i => if i = 0xf then (if overflowed then 1 else 0) else s.v i,
           ram_idx := sum % (0x0fff + 1),
           pc := s.pc + 2 }

/-- Opcode FX29: point ram_idx at the font glyph for the character in vx.
(The source masks the opcode with 0x0f02; after the shift by 8 this equals
the usual 0x0f00 mask.) -/
def execute_opcode_fx29 (s : Emu) : Emu :=
  let x := (s.opcode &&& 0x0f02) >>> 8
  let fchar := s.v x
  { s with ram_idx := 0 + fchar * 5, pc := s.pc + 2 }

/-- Opcode FX33: store the BCD representation of vx at ram_idx. -/
def execute_opcode_fx33 (s : Emu) : Emu :=
  let x := (s.opcode &&& 0x0f02) >>> 8
  let vx0 := s.v x
  let ones := vx0 % 10
  let vx1 := vx0 / 10
  let tens := vx1 % 10
  let vx2 := vx1 / 10
  let hundreds := vx2 % 10
  let ram1 := fun a => if a = s.ram_idx + 0 then hundreds else s.ram a
  let ram2 := fun a => if a = s.ram_idx + 1 then tens else ram1 a
  { s with ram := fun a => if a = s.ram_idx + 2 then ones else ram2 a,
           pc := s.pc + 2 }

/-- Opcode FX55: store v0 to vx in memory starting at ram_idx. -/
def execute_opcode_fx55 (s : Emu) : Emu :=
  let x := (s.opcode &&& 0x0f02) >>> 8
  let s1 := (List.range (x + 1)).foldl
    (fun acc i =>
      { acc with ram := fun a => if a = acc.ram_idx + i then acc.v i else acc.ram a })
    s
  { s1 with pc := s1.pc + 2 }

/-- Opcode FX65: fill v0 to vx from memory starting at ram_idx. -/
def execute_opcode_fx65 (s : Emu) : Emu :=
  let x := (s.opcode &&& 0x0f02) >>> 8
  let s1 := (List.range (x + 1)).foldl
    (fun acc i =>
      { acc with v := fun j => if j = i then acc.ram (acc.ram_idx + i) else acc.v j })
    s
  { s1 with pc := s1.pc + 2 }

/-- `fetch_opcode`: big-endian read of the two bytes at pc. -/
def fetch_opcode (s : Emu) : Emu :=
  { s with opcode := (s.ram s.pc) <<< 8 ||| s.ram (s.pc + 1) }

/-- `decode_and_execute_opcode`.  An unrecognized word panics in the source
(`unknown_opcode`), modelled as `none`. -/
def decode_and_execute_opcode (rnd : Nat) (s : Emu) : Option Emu :=
  let hi := s.opcode &&& 0xf000
  if hi = 0x0000 then
    let lo := s.opcode &&& 0x00ff
    if lo = 0x00e0 then some (execute_opcode_00e0 s)
    else if lo = 0x00ee then some (execute_opcode_00ee s)
    else none
  else if hi = 0x1000 then some (execute_opcode_1nnn s)
  else if hi = 0x2000 then some (execute_opcode_2nnn s)
  else if hi = 0x3000 then some (execute_opcode_3xnn s)
  else if hi = 0x4000 then some (execute_opcode_4xnn s)
  else if hi = 0x5000 then
    if s.opcode &&& 0x000f = 0x0000 then some (execute_opcode_5xy0 s) else none
  else if hi = 0x6000 then some (execute_opcode_6xnn s)
  else if hi = 0x7000 then some (execute_opcode_7xnn s)
  else if hi = 0x8000 then
    let lo := s.opcode &&& 0x000f
    if lo = 0x0000 then some (execute_opcode_8xy0 s)
    else if lo = 0x0001 then some (execute_opcode_8xy1 s)
    else if lo = 0x0002 then some (execute_opcode_8xy2 s)
    else if lo = 0x0003 then some (execute_opcode_8xy3 s)
    else if lo = 0x0004 then some (execute_opcode_8xy4 s)
    else if lo = 0x0005 then some (execute_opcode_8xy5 s)
    else if lo = 0x0006 then some (execute_opcode_8xy6 s)
    else if lo = 0x0007 then some (execute_opcode_8xy7 s)
    else if lo = 0x000e then some (execute_opcode_8xye s)
    else none
  else if hi = 0x9000 then some (execute_opcode_9xy0 s)
  else if hi = 0xa000 then some (execute_opcode_annn s)
  else if hi = 0xb000 then some (execute_opcode_bnnn s)
  else if hi = 0xc000 then some (execute_opcode_cxnn rnd s)
  else if hi = 0xd000 then some (execute_opcode_dxyn s)
  else if hi = 0xe000 then
    let lo := s.opcode &&& 0x000f
    if lo = 0x000e then some (execute_opcode_ex9e s)
    else if lo = 0x0001 then some (execute_opcode_exa1 s)
    else none
  else if hi = 0xf000 then
    let lo := s.opcode &&& 0x00ff
    if lo = 0x0007 then some (execute_opcode_fx07 s)
    else if lo = 0x000a then some (execute_opcode_fx0a s)
    else if lo = 0x0015 then some (execute_opcode_fx15 s)
    else if lo = 0x0018 then some (execute_opcode_fx18 s)
    else if lo = 0x001e then some (execute_opcode_fx1e s)
    else if lo = 0x0029 then some (execute_opcode_fx29 s)
    else if lo = 0x0033 then some (execute_opcode_fx33 s)
    else if lo = 0x0055 then some (execute_opcode_fx55 s)
    else if lo = 0x0065 then some (execute_opcode_fx65 s)
    else none
  else none

/-- `execute_cycle`: fetch, then decode and execute. -/
def execute_cycle (rnd : Nat) (s : Emu) : Option Emu :=
  decode_and_execute_opcode rnd (fetch_opcode s)

/-- Modelled from the spec: the quirk toggle required by §4.3/§9 ("Both
variants must be retained as selectable behavior (a build/runtime quirk
toggle)").  The host-configured boolean selects, for the two disputed shift
families 8XY6/8XYE, whether the dispatcher runs the "original" variant
(shift vy into vx) or the "revised" variant (shift vx in place).  No such
toggle exists in the source; this definition exists to compare the spec's
required dispatcher against the actual one. -/
def decode_with_quirk_toggle (useOriginal : Bool) (rnd : Nat) (s : Emu) : Option Emu :=
  let hi := s.opcode &&& 0xf000
  if hi = 0x0000 then
    let lo := s.opcode &&& 0x00ff
    if lo = 0x00e0 then some (execute_opcode_00e0 s)
    else if lo = 0x00ee then some (execute_opcode_00ee s)
    else none
  else if hi = 0x1000 then some (execute_opcode_1nnn s)
  else if hi = 0x2000 then some (execute_opcode_2nnn s)
  else if hi = 0x3000 then some (execute_opcode_3xnn s)
  else if hi = 0x4000 then some (execute_opcode_4xnn s)
  else if hi = 0x5000 then
    if s.opcode &&& 0x000f = 0x0000 then some (execute_opcode_5xy0 s) else none
  else if hi = 0x6000 then some (execute_opcode_6xnn s)
  else if hi = 0x7000 then some (execute_opcode_7xnn s)
  else if hi = 0x8000 then
    let lo := s.opcode &&& 0x000f
    if lo = 0x0000 then some (execute_opcode_8xy0 s)
    else if lo = 0x0001 then some (execute_opcode_8xy1 s)
    else if lo = 0x0002 then some (execute_opcode_8xy2 s)
    else if lo = 0x0003 then some (execute_opcode_8xy3 s)
    else if lo = 0x0004 then some (execute_opcode_8xy4 s)
    else if lo = 0x0005 then some (execute_opcode_8xy5 s)
    else if lo = 0x0006 then
      some (if useOriginal then execute_opcode_8xy6_orig s else execute_opcode_8xy6 s)
    else if lo = 0x0007 then some (execute_opcode_8xy7 s)
    else if lo = 0x000e then
      some (if useOriginal then execute_opcode_8xye_orig s else execute_opcode_8xye s)
    else none
  else if hi = 0x9000 then some (execute_opcode_9xy0 s)
  else if hi = 0xa000 then some (execute_opcode_annn s)
  else if hi = 0xb000 then some (execute_opcode_bnnn s)
  else if hi = 0xc000 then some (execute_opcode_cxnn rnd s)
  else if hi = 0xd000 then some (execute_opcode_dxyn s)
  else if hi = 0xe000 then
    let lo := s.opcode &&& 0x000f
    if lo = 0x000e then some (execute_opcode_ex9e s)
    else if lo = 0x0001 then some (execute_opcode_exa1 s)
    else none
  else if hi = 0xf000 then
    let lo := s.opcode &&& 0x00ff
    if lo = 0x0007 then some (execute_opcode_fx07 s)
    else if lo = 0x000a then some (execute_opcode_fx0a s)
    else if lo = 0x0015 then some (execute_opcode_fx15 s)
    else if lo = 0x0018 then some (execute_opcode_fx18 s)
    else if lo = 0x001e then some (execute_opcode_fx1e s)
    else if lo = 0x0029 then some (execute_opcode_fx29 s)
    else if lo = 0x0033 then some (execute_opcode_fx33 s)
    else if lo = 0x0055 then some (execute_opcode_fx55 s)
    else if lo = 0x0065 then some (execute_opcode_fx65 s)
    else none
  else none

/-- Does the DXYN draw in state `s` have a set sprite bit landing on display
cell `(a, b)`?  Row `yo` of the sprite comes from `ram[ram_idx + yo]`, bit
`xo` is tested with the mask `128 >>> xo`, and the bit lands at
`((vx + xo) % GFX_W, (vy + yo) % GFX_H)` — the two coordinates wrap
independently. -/
def spriteHit (s : Emu) (a b : Nat) : Bool :=
  (List.range (s.opcode &&& 0x000f)).any fun yo =>
    (List.range 8).any fun xo =>
      ((s.v ((s.opcode &&& 0x0f00) >>> 8) + xo) % GFX_W == a) &&
      ((s.v ((s.opcode &&& 0x00f0) >>> 4) + yo) % GFX_H == b) &&
      (s.ram (s.ram_idx + yo) &&& (128 >>> xo) != 0)

/-- Does the DXYN draw in state `s` hit a pixel that is currently set (the
collision signal)? -/
def spriteCollision (s : Emu) : Bool :=
  (List.range (s.opcode &&& 0x000f)).any fun yo =>
    (List.range 8).any fun xo =>
      (s.ram (s.ram_idx + yo) &&& (128 >>> xo) != 0) &&
      s.gfx ((s.v ((s.opcode &&& 0x0f00) >>> 8) + xo) % GFX_W)
            ((s.v ((s.opcode &&& 0x00f0) >>> 4) + yo) % GFX_H)

/-- Does the DXYN draw in state `s` hit a pixel that is currently unset
(i.e. turn some pixel on, the condition that marks the display dirty)? -/
def spriteNewlyLit (s : Emu) : Bool :=
  (List.range (s.opcode &&& 0x000f)).any fun yo =>
    (List.range 8).any fun xo =>
      (s.ram (s.ram_idx + yo) &&& (128 >>> xo) != 0) &&
      !(s.gfx ((s.v ((s.opcode &&& 0x0f00) >>> 8) + xo) % GFX_W)
              ((s.v ((s.opcode &&& 0x00f0) >>> 4) + yo) % GFX_H))

/-- A machine state with everything blank (no font table), used to build
small concrete test states. -/
def emuZero : Emu where
  gfx := fun _ _ => false
  keys := fun _ => false
  draw := false
  opcode := 0
  ram := fun _ => 0
  v := fun _ => 0
  ram_idx := 0
  pc := 512
  dt := 0
  st := 0
  stack := fun _ => 0
  sp := 0
  rom := []

/-- Concrete state for the FX0A claim: keys 3 and 5 are both pressed and the
instruction at pc = 0x200 is 0xF20A (wait for key into v2). -/
def emuKeysPressed : Emu :=
  { emuZero with
    keys := fun i => i == 3 || i == 5
    ram := fun a => if a = 512 then 0xf2 else if a = 513 then 0x0a else 0 }

/-- Concrete state for the 8XYE claim: v[0xa] = 0x80 (bit 7 set, bit 0
clear), instruction 0x8ABE. -/
def emuShiftMsb : Emu :=
  { emuZero with
    opcode := 0x8abe
    v := fun i => if i = 0xa then 0x80 else 0 }

/-- Concrete state on which the original and revised 8XY6 variants disagree:
v[0xa] = 5, v[0xb] = 4, instruction 0x8AB6.  The revised variant sets
vf = 5 &&& 1 = 1; the original variant sets vf = 4 &&& 1 = 0. -/
def emuShiftToggle : Emu :=
  { emuZero with
    opcode := 0x8ab6
    v := fun i => if i = 0xa then 5 else if i = 0xb then 4 else 0 }

/-- Concrete state for the add-with-carry example 0xFF + 0x03: v[0xa] = 0xff,
v[0xb] = 0x03, instruction 0x8AB4. -/
def emuAddCarry : Emu :=
  { emuZero with
    opcode := 0x8ab4
    v := fun i => if i = 0xa then 0xff else if i = 0xb then 0x03 else 0 }

/-- Concrete state for the double-draw claim: instruction 0xD120 draws a
zero-row sprite, so drawing it twice turns no pixel off and the second draw
leaves vf = 0. -/
def emuDrawTwice : Emu :=
  { emuZero with opcode := 0xd120 }

/-- Concrete state drawing one solid sprite row (0xff at address 600) via
instruction 0xD121. -/
def emuDrawSprite : Emu :=
  { emuZero with
    opcode := 0xd121
    ram_idx := 600
    ram := fun a => if a = 600 then 0xff else 0 }

/-- Concrete state for the timer claim: delay timer 2, sound timer 0. -/
def emuTimers : Emu :=
  { emuZero with dt := 2 }

/-- A host-level operation on the machine, for stating reachability
invariants: loading a ROM, resetting, one execute_cycle (with its random
byte), or one timer tick. -/
inductive Op where
  | loadRom : List Nat → Op
  | reset : Op
  | cycle : Nat → Op
  | timers : Op

/-- Run one host operation; `none` models the panics (oversized ROM,
unknown opcode). -/
def runOp (s : Emu) : Op → Option Emu
  | .loadRom r => (s.load_rom r).toOption
  | .reset => s.reset.toOption
  | .cycle rnd => execute_cycle rnd s
  | .timers => some s.update_timers

/-- Run a sequence of host operations from a starting state. -/
def runOps (s : Emu) (ops : List Op) : Option Emu :=
  ops.foldl (fun acc op => acc.bind (fun t => runOp t op)) (some s)

/-- The ROM bytes supplied to a load operation are bytes (`Vec<u8>` in the
source). -/
def OpBytesBounded : Op → Prop
  | .loadRom r => ∀ b ∈ r, b ≤ 255
  | .reset => True
  | .cycle _ => True
  | .timers => True

instance (op : Op) : Decidable (OpBytesBounded op) :=
  match op with
  | .loadRom r => inferInstanceAs (Decidable (∀ b ∈ r, b ≤ 255))
  | .reset => inferInstanceAs (Decidable True)
  | .cycle _ => inferInstanceAs (Decidable True)
  | .timers => inferInstanceAs (Decidable True)

/-- The machine-integer invariant: every register holds a byte, ram holds
bytes, the index register fits in 12 bits, the timers hold bytes, and the
cached rom is a byte list. -/
def Inv (s : Emu) : Prop :=
  (∀ i, s.v i ≤ 255) ∧ (∀ a, s.ram a ≤ 255) ∧ s.ram_idx ≤ 0xfff ∧
  s.dt ≤ 255 ∧ s.st ≤ 255 ∧ (∀ b ∈ s.rom, b ≤ 255)

/-- The index-register bound claimed by C10, stated on the result of a
(possibly failing) run: the index register is at most 0xFFF and the u16
addition `ram_idx + v[x]` performed by FX1E cannot overflow. -/
def RamIdxBounded : Option Emu → Prop
  | none => True
  | some s => s.ram_idx ≤ 0xfff ∧ ∀ i, i < 16 → s.ram_idx + s.v i < 65536

/-- A small concrete operation sequence: load a two-byte ROM (a jump to
0x200), run one cycle, tick the timers. -/
def c10ops : List Op := [Op.loadRom [0x12, 0x00], Op.cycle 0, Op.timers]

end Chip8

namespace Chip8

/-! ### Helper lemmas -/

lemma anyCongr {l : List Nat} {p q : Nat → Bool} (h : ∀ a ∈ l, p a = q a) :
    l.any p = l.any q := by
  induction l with
  | nil => rfl
  | cons x xs ih =>
    simp only [List.any_cons]
    rw [h x (by simp), ih (fun a ha => h a (by simp [ha]))]

lemma getD_le_of_all {l : List Nat} (h : ∀ b ∈ l, b ≤ 255) (i : Nat) :
    l.getD i 0 ≤ 255 := by
  rcases h' : l[i]? with _ | x
  · simp [List.getD, h']
  · have := h x (List.getElem?_mem h')
    simp [List.getD, h', this]

lemma mod256_le (n : Nat) : n % 256 ≤ 255 := by omega

lemma nibble_hi_le (op : Nat) : (op &&& 0x0f00) >>> 8 ≤ 15 := by
  have h1 : op &&& 0x0f00 ≤ 0x0f00 := Nat.and_le_right
  rw [Nat.shiftRight_eq_div_pow]
  omega

lemma nibble_hi2_le (op : Nat) : (op &&& 0x0f02) >>> 8 ≤ 15 := by
  have h1 : op &&& 0x0f02 ≤ 0x0f02 := Nat.and_le_right
  rw [Nat.shiftRight_eq_div_pow]
  omega

lemma pairwise_range_mod (c m k : Nat) (hk : k ≤ m) :
    (List.range k).Pairwise (fun u w => (c + u) % m ≠ (c + w) % m) := by
  have base := List.pairwise_lt_range k
  refine base.imp_of_mem ?_
  intro u w hu hw huw heq
  have h1 : u ≡ w [MOD m] := Nat.ModEq.add_left_cancel' c heq
  have hu' : u < m := lt_of_lt_of_le (List.mem_range.mp hu) hk
  have hw' : w < m := lt_of_lt_of_le (List.mem_range.mp hw) hk
  have : u = w := by
    have h2 := h1
    unfold Nat.ModEq at h2
    rw [Nat.mod_eq_of_lt hu', Nat.mod_eq_of_lt hw'] at h2
    exact h2
  omega

lemma load_rom_copy_spec (s : Emu) (k : Nat) :
    (load_rom_copy s k).rom = s.rom ∧
    (∀ a, (load_rom_copy s k).ram a =
      if PROGRAM_START ≤ a ∧ a < PROGRAM_START + k
      then s.rom.getD (a - PROGRAM_START) 0 else s.ram a) ∧
    (load_rom_copy s k).v = s.v ∧ (load_rom_copy s k).pc = s.pc ∧
    (load_rom_copy s k).ram_idx = s.ram_idx ∧ (load_rom_copy s k).sp = s.sp ∧
    (load_rom_copy s k).stack = s.stack ∧ (load_rom_copy s k).gfx = s.gfx ∧
    (load_rom_copy s k).keys = s.keys ∧ (load_rom_copy s k).dt = s.dt ∧
    (load_rom_copy s k).st = s.st ∧ (load_rom_copy s k).draw = s.draw ∧
    (load_rom_copy s k).opcode = s.opcode := by
  induction k with
  | zero =>
    refine ⟨rfl, fun a => ?_, rfl, rfl, rfl, rfl, rfl, rfl, rfl, rfl, rfl, rfl, rfl⟩
    have hc : ¬ (PROGRAM_START ≤ a ∧ a < PROGRAM_START + 0) := by omega
    rw [if_neg hc]
    rfl
  | succ k ih =>
    obtain ⟨h1, h2, hrest⟩ := ih
    unfold load_rom_copy at *
    simp only [List.range_succ, List.foldl_append, List.foldl_cons, List.foldl_nil] at *
    refine ⟨h1, fun a => ?_, hrest⟩
    by_cases ha : a = PROGRAM_START + k
    · subst ha
      have hc : PROGRAM_START ≤ PROGRAM_START + k ∧
          PROGRAM_START + k < PROGRAM_START + (k + 1) := by omega
      rw [if_pos rfl, h1, if_pos hc, Nat.add_sub_cancel_left]
    · rw [if_neg ha, h2 a]
      by_cases hrange : PROGRAM_START ≤ a ∧ a < PROGRAM_START + k
      · have hc : PROGRAM_START ≤ a ∧ a < PROGRAM_START + (k + 1) := by omega
        rw [if_pos hrange, if_pos hc]
      · have hc : ¬ (PROGRAM_START ≤ a ∧ a < PROGRAM_START + (k + 1)) := by omega
        rw [if_neg hrange, if_neg hc]

lemma update_timers_spec (s : Emu) :
    s.update_timers.dt = s.dt - 1 ∧ s.update_timers.st = s.st - 1 ∧
    s.update_timers.v = s.v ∧ s.update_timers.ram = s.ram ∧
    s.update_timers.ram_idx = s.ram_idx ∧ s.update_timers.rom = s.rom := by
  unfold Emu.update_timers
  rcases Nat.eq_zero_or_pos s.dt with h1 | h1 <;>
    rcases Nat.eq_zero_or_pos s.st with h2 | h2 <;>
      simp [h1, h2, Nat.pos_iff_ne_zero] <;> omega

end Chip8

namespace Chip8

/-! ### Pointwise characterization of the DXYN draw loop -/

lemma drawPixelStep_spec (sx sy yo row : Nat) (s : Emu) (xo : Nat) :
    (∀ a b, (drawPixelStep sx sy yo row s xo).gfx a b =
      if a = (sx + xo) % GFX_W ∧ b = (sy + yo) % GFX_H
      then xor (s.gfx a b) (row &&& (128 >>> xo) != 0)
      else s.gfx a b) ∧
    ((drawPixelStep sx sy yo row s xo).draw =
      (s.draw || ((row &&& (128 >>> xo) != 0) &&
        !(s.gfx ((sx + xo) % GFX_W) ((sy + yo) % GFX_H))))) ∧
    ((drawPixelStep sx sy yo row s xo).v 0xf =
      if ((row &&& (128 >>> xo) != 0) &&
          s.gfx ((sx + xo) % GFX_W) ((sy + yo) % GFX_H)) then 1 else s.v 0xf) ∧
    (∀ i, i ≠ 0xf → (drawPixelStep sx sy yo row s xo).v i = s.v i) ∧
    ((drawPixelStep sx sy yo row s xo).ram = s.ram) ∧
    ((drawPixelStep sx sy yo row s xo).ram_idx = s.ram_idx) ∧
    ((drawPixelStep sx sy yo row s xo).pc = s.pc) ∧
    ((drawPixelStep sx sy yo row s xo).opcode = s.opcode) ∧
    ((drawPixelStep sx sy yo row s xo).keys = s.keys) ∧
    ((drawPixelStep sx sy yo row s xo).dt = s.dt) ∧
    ((drawPixelStep sx sy yo row s xo).st = s.st) ∧
    ((drawPixelStep sx sy yo row s xo).sp = s.sp) ∧
    ((drawPixelStep sx sy yo row s xo).stack = s.stack) ∧
    ((drawPixelStep sx sy yo row s xo).rom = s.rom) := by
  unfold drawPixelStep
  cases hbit : (row &&& (128 >>> xo) != 0) <;>
    cases hg : s.gfx ((sx + xo) % GFX_W) ((sy + yo) % GFX_H) <;>
      simp [hbit, hg]
  · intro a b
    by_cases h : a = (sx + xo) % GFX_W ∧ b = (sy + yo) % GFX_H
    · obtain ⟨h1, h2⟩ := h
      subst h1; subst h2
      simp [hg]
    · rw [if_neg h]
      rcases not_and_or.mp h with h1 | h1 <;> simp [h1]
  · constructor
    · intro a b
      by_cases h : a = (sx + xo) % GFX_W ∧ b = (sy + yo) % GFX_H
      · obtain ⟨h1, h2⟩ := h
        subst h1; subst h2
        simp [hg]
      · rw [if_neg h]
        rcases not_and_or.mp h with h1 | h1 <;> simp [h1]
    · intro i hi h15
      exact absurd h15 hi

lemma drawPixelFold_spec (sx sy yo row : Nat) (xs : List Nat)
    (hxs : xs.Pairwise (fun u w => (sx + u) % GFX_W ≠ (sx + w) % GFX_W)) (s : Emu) :
    (∀ a b, (xs.foldl (drawPixelStep sx sy yo row) s).gfx a b =
      xor (s.gfx a b)
        (xs.any fun xo => ((sx + xo) % GFX_W == a) && ((sy + yo) % GFX_H == b) &&
          (row &&& (128 >>> xo) != 0))) ∧
    ((xs.foldl (drawPixelStep sx sy yo row) s).draw =
      (s.draw || xs.any fun xo => (row &&& (128 >>> xo) != 0) &&
        !(s.gfx ((sx + xo) % GFX_W) ((sy + yo) % GFX_H)))) ∧
    ((xs.foldl (drawPixelStep sx sy yo row) s).v 0xf =
      if (xs.any fun xo => (row &&& (128 >>> xo) != 0) &&
          s.gfx ((sx + xo) % GFX_W) ((sy + yo) % GFX_H)) then 1 else s.v 0xf) ∧
    (∀ i, i ≠ 0xf → (xs.foldl (drawPixelStep sx sy yo row) s).v i = s.v i) ∧
    ((xs.foldl (drawPixelStep sx sy yo row) s).ram = s.ram) ∧
    ((xs.foldl (drawPixelStep sx sy yo row) s).ram_idx = s.ram_idx) ∧
    ((xs.foldl (drawPixelStep sx sy yo row) s).pc = s.pc) ∧
    ((xs.foldl (drawPixelStep sx sy yo row) s).opcode = s.opcode) ∧
    ((xs.foldl (drawPixelStep sx sy yo row) s).keys = s.keys) ∧
    ((xs.foldl (drawPixelStep sx sy yo row) s).dt = s.dt) ∧
    ((xs.foldl (drawPixelStep sx sy yo row) s).st = s.st) ∧
    ((xs.foldl (drawPixelStep sx sy yo row) s).sp = s.sp) ∧
    ((xs.foldl (drawPixelStep sx sy yo row) s).stack = s.stack) ∧
    ((xs.foldl (drawPixelStep sx sy yo row) s).rom = s.rom) := by
  induction xs generalizing s with
  | nil => simp
  | cons x xs ih =>
    obtain ⟨hx, hxs'⟩ := List.pairwise_cons.mp hxs
    obtain ⟨pg, pd, pf, pv, pram, pri, ppc, pop, pk, pdt, pst, psp, pstk, prom⟩ :=
      drawPixelStep_spec sx sy yo row s x
    obtain ⟨ig, id', if', iv, iram, iri, ipc, iop, ik, idt, ist, isp, istk, irom⟩ :=
      ih hxs' (drawPixelStep sx sy yo row s x)
    simp only [List.foldl_cons, List.any_cons]
    refine ⟨?_, ?_, ?_, ?_, ?_, ?_, ?_, ?_, ?_, ?_, ?_, ?_, ?_, ?_⟩
    · intro a b
      rw [ig a b, pg a b]
      by_cases h : a = (sx + x) % GFX_W ∧ b = (sy + yo) % GFX_H
      · obtain ⟨h1, h2⟩ := h
        subst h1; subst h2
        have hany : (xs.any fun xo => ((sx + xo) % GFX_W == (sx + x) % GFX_W) &&
            (((sy + yo) % GFX_H : Nat) == (sy + yo) % GFX_H) &&
            (row &&& (128 >>> xo) != 0)) = false := by
          rw [List.any_eq_false]
          intro xo hxo
          simp [Ne.symm (hx xo hxo)]
        rw [if_pos ⟨rfl, rfl⟩, hany]
        simp
      · rw [if_neg h]
        have hhit : (((sx + x) % GFX_W == a) && (((sy + yo) % GFX_H : Nat) == b) &&
            (row &&& (128 >>> x) != 0)) = false := by
          rcases not_and_or.mp h with h1 | h1
          · simp
            intro e
            exact absurd e.symm h1
          · simp
            intro _ e
            exact absurd e.symm h1
        rw [hhit]
        simp
    · rw [id', pd]
      have hcong : (xs.any fun xo => (row &&& (128 >>> xo) != 0) &&
          !((drawPixelStep sx sy yo row s x).gfx ((sx + xo) % GFX_W) ((sy + yo) % GFX_H))) =
          (xs.any fun xo => (row &&& (128 >>> xo) != 0) &&
          !(s.gfx ((sx + xo) % GFX_W) ((sy + yo) % GFX_H))) := by
        refine anyCongr (fun xo hxo => ?_)
        rw [pg]
        rw [if_neg (fun hc => (hx xo hxo) hc.1.symm)]
      rw [hcong, Bool.or_assoc]
    · rw [if', pf]
      have hcong : (xs.any fun xo => (row &&& (128 >>> xo) != 0) &&
          ((drawPixelStep sx sy yo row s x).gfx ((sx + xo) % GFX_W) ((sy + yo) % GFX_H))) =
          (xs.any fun xo => (row &&& (128 >>> xo) != 0) &&
          (s.gfx ((sx + xo) % GFX_W) ((sy + yo) % GFX_H))) := by
        refine anyCongr (fun xo hxo => ?_)
        rw [pg]
        rw [if_neg (fun hc => (hx xo hxo) hc.1.symm)]
      rw [hcong]
      rcases Bool.eq_false_or_eq_true ((row &&& (128 >>> x) != 0) &&
          s.gfx ((sx + x) % GFX_W) ((sy + yo) % GFX_H)) with hp | hp <;>
        rcases Bool.eq_false_or_eq_true (xs.any fun xo => (row &&& (128 >>> xo) != 0) &&
          s.gfx ((sx + xo) % GFX_W) ((sy + yo) % GFX_H)) with hq | hq <;>
        simp [hp, hq]
    · intro i hi
      rw [iv i hi, pv i hi]
    · rw [iram, pram]
    · rw [iri, pri]
    · rw [ipc, ppc]
    · rw [iop, pop]
    · rw [ik, pk]
    · rw [idt, pdt]
    · rw [ist, pst]
    · rw [isp, psp]
    · rw [istk, pstk]
    · rw [irom, prom]

lemma drawRowFold_spec (sx sy : Nat) (ys : List Nat)
    (hys : ys.Pairwise (fun u w => (sy + u) % GFX_H ≠ (sy + w) % GFX_H)) (s : Emu) :
    (∀ a b, (ys.foldl (drawRowStep sx sy) s).gfx a b =
      xor (s.gfx a b)
        (ys.any fun yo => (List.range 8).any fun xo =>
          ((sx + xo) % GFX_W == a) && ((sy + yo) % GFX_H == b) &&
          (s.ram (s.ram_idx + yo) &&& (128 >>> xo) != 0))) ∧
    ((ys.foldl (drawRowStep sx sy) s).draw =
      (s.draw || ys.any fun yo => (List.range 8).any fun xo =>
        (s.ram (s.ram_idx + yo) &&& (128 >>> xo) != 0) &&
        !(s.gfx ((sx + xo) % GFX_W) ((sy + yo) % GFX_H)))) ∧
    ((ys.foldl (drawRowStep sx sy) s).v 0xf =
      if (ys.any fun yo => (List.range 8).any fun xo =>
          (s.ram (s.ram_idx + yo) &&& (128 >>> xo) != 0) &&
          s.gfx ((sx + xo) % GFX_W) ((sy + yo) % GFX_H)) then 1 else s.v 0xf) ∧
    (∀ i, i ≠ 0xf → (ys.foldl (drawRowStep sx sy) s).v i = s.v i) ∧
    ((ys.foldl (drawRowStep sx sy) s).ram = s.ram) ∧
    ((ys.foldl (drawRowStep sx sy) s).ram_idx = s.ram_idx) ∧
    ((ys.foldl (drawRowStep sx sy) s).pc = s.pc) ∧
    ((ys.foldl (drawRowStep sx sy) s).opcode = s.opcode) ∧
    ((ys.foldl (drawRowStep sx sy) s).keys = s.keys) ∧
    ((ys.foldl (drawRowStep sx sy) s).dt = s.dt) ∧
    ((ys.foldl (drawRowStep sx sy) s).st = s.st) ∧
    ((ys.foldl (drawRowStep sx sy) s).sp = s.sp) ∧
    ((ys.foldl (drawRowStep sx sy) s).stack = s.stack) ∧
    ((ys.foldl (drawRowStep sx sy) s).rom = s.rom) := by
  induction ys generalizing s with
  | nil => simp
  | cons y ys ih =>
    obtain ⟨hy, hys'⟩ := List.pairwise_cons.mp hys
    obtain ⟨pg, pd, pf, pv, pram, pri, ppc, pop, pk, pdt, pst, psp, pstk, prom⟩ :=
      drawPixelFold_spec sx sy y (s.ram (s.ram_idx + y)) (List.range 8)
        (pairwise_range_mod sx GFX_W 8 (by decide)) s
    obtain ⟨ig, id', if', iv, iram, iri, ipc, iop, ik, idt, ist, isp, istk, irom⟩ :=
      ih hys' (drawRowStep sx sy s y)
    have hstep : drawRowStep sx sy s y =
        (List.range 8).foldl (drawPixelStep sx sy y (s.ram (s.ram_idx + y))) s := rfl
    rw [hstep] at ig id' if' iv iram iri ipc iop ik idt ist isp istk irom
    rw [pram, pri] at ig id' if'
    -- the gfx of the state after row y, pointwise
    have hrowne : ∀ (a0 b0 : Nat), (sy + y) % GFX_H ≠ b0 →
        ((List.range 8).any fun xo =>
          ((sx + xo) % GFX_W == a0) && ((sy + y) % GFX_H == b0) &&
          (s.ram (s.ram_idx + y) &&& (128 >>> xo) != 0)) = false := by
      intro a0 b0 hne
      rw [List.any_eq_false]
      intro xo _
      have hb : ((sy + y) % GFX_H == b0) = false := by simpa using hne
      simp [hb]
    have hg1 : ∀ (a0 b0 : Nat), (sy + y) % GFX_H ≠ b0 →
        ((List.range 8).foldl (drawPixelStep sx sy y (s.ram (s.ram_idx + y))) s).gfx a0 b0 =
        s.gfx a0 b0 := by
      intro a0 b0 hne
      rw [pg a0 b0, hrowne a0 b0 hne]
      simp
    simp only [List.foldl_cons, List.any_cons]
    rw [hstep]
    refine ⟨?_, ?_, ?_, ?_, ?_, ?_, ?_, ?_, ?_, ?_, ?_, ?_, ?_, ?_⟩
    · intro a b
      rw [ig a b, pg a b]
      rcases Bool.eq_false_or_eq_true ((List.range 8).any fun xo =>
          ((sx + xo) % GFX_W == a) && ((sy + y) % GFX_H == b) &&
          (s.ram (s.ram_idx + y) &&& (128 >>> xo) != 0)) with hrow | hrow
      · -- row y hit (a, b), so b is row y's display row and later rows miss it
        have hb : (sy + y) % GFX_H = b := by
          obtain ⟨xo, _, hpred⟩ := List.any_eq_true.mp hrow
          simp at hpred
          exact hpred.1.2
        have hany : (ys.any fun yo => (List.range 8).any fun xo =>
            ((sx + xo) % GFX_W == a) && ((sy + yo) % GFX_H == b) &&
            (s.ram (s.ram_idx + yo) &&& (128 >>> xo) != 0)) = false := by
          rw [List.any_eq_false]
          intro yo hyo
          rw [Bool.not_eq_true, List.any_eq_false]
          intro xo _
          have hbne : ((sy + yo) % GFX_H == b) = false := by
            have : (sy + yo) % GFX_H ≠ b := by
              rw [← hb]
              exact fun e => (hy yo hyo) e.symm
            simpa using this
          simp [hbne]
        rw [hrow, hany]
        simp
      · rw [hrow]
        simp
    · rw [id', pd]
      have hcong : (ys.any fun yo => (List.range 8).any fun xo =>
          (s.ram (s.ram_idx + yo) &&& (128 >>> xo) != 0) &&
          !(((List.range 8).foldl (drawPixelStep sx sy y (s.ram (s.ram_idx + y))) s).gfx
            ((sx + xo) % GFX_W) ((sy + yo) % GFX_H))) =
          (ys.any fun yo => (List.range 8).any fun xo =>
          (s.ram (s.ram_idx + yo) &&& (128 >>> xo) != 0) &&
          !(s.gfx ((sx + xo) % GFX_W) ((sy + yo) % GFX_H))) := by
        refine anyCongr (fun yo hyo => ?_)
        refine anyCongr (fun xo _ => ?_)
        rw [hg1 _ _ (hy yo hyo)]
      rw [hcong, Bool.or_assoc]
    · rw [if', pf]
      have hcong : (ys.any fun yo => (List.range 8).any fun xo =>
          (s.ram (s.ram_idx + yo) &&& (128 >>> xo) != 0) &&
          (((List.range 8).foldl (drawPixelStep sx sy y (s.ram (s.ram_idx + y))) s).gfx
            ((sx + xo) % GFX_W) ((sy + yo) % GFX_H))) =
          (ys.any fun yo => (List.range 8).any fun xo =>
          (s.ram (s.ram_idx + yo) &&& (128 >>> xo) != 0) &&
          (s.gfx ((sx + xo) % GFX_W) ((sy + yo) % GFX_H))) := by
        refine anyCongr (fun yo hyo => ?_)
        refine anyCongr (fun xo _ => ?_)
        rw [hg1 _ _ (hy yo hyo)]
      rw [hcong]
      rcases Bool.eq_false_or_eq_true ((List.range 8).any fun xo =>
          (s.ram (s.ram_idx + y) &&& (128 >>> xo) != 0) &&
          s.gfx ((sx + xo) % GFX_W) ((sy + y) % GFX_H)) with hp | hp <;>
        rcases Bool.eq_false_or_eq_true (ys.any fun yo => (List.range 8).any fun xo =>
          (s.ram (s.ram_idx + yo) &&& (128 >>> xo) != 0) &&
          s.gfx ((sx + xo) % GFX_W) ((sy + yo) % GFX_H)) with hq | hq <;>
        simp [hp, hq]
    · intro i hi
      rw [iv i hi, pv i hi]
    · rw [iram, pram]
    · rw [iri, pri]
    · rw [ipc, ppc]
    · rw [iop, pop]
    · rw [ik, pk]
    · rw [idt, pdt]
    · rw [ist, pst]
    · rw [isp, psp]
    · rw [istk, pstk]
    · rw [irom, prom]

lemma dxyn_spec (s : Emu) :
    (∀ a b, (execute_opcode_dxyn s).gfx a b = xor (s.gfx a b) (spriteHit s a b)) ∧
    ((execute_opcode_dxyn s).draw = (s.draw || spriteNewlyLit s)) ∧
    ((execute_opcode_dxyn s).v 0xf = if spriteCollision s then 1 else 0) ∧
    (∀ i, i ≠ 0xf → (execute_opcode_dxyn s).v i = s.v i) ∧
    ((execute_opcode_dxyn s).ram = s.ram) ∧
    ((execute_opcode_dxyn s).ram_idx = s.ram_idx) ∧
    ((execute_opcode_dxyn s).pc = s.pc + 2) ∧
    ((execute_opcode_dxyn s).opcode = s.opcode) ∧
    ((execute_opcode_dxyn s).keys = s.keys) ∧
    ((execute_opcode_dxyn s).dt = s.dt) ∧
    ((execute_opcode_dxyn s).st = s.st) ∧
    ((execute_opcode_dxyn s).sp = s.sp) ∧
    ((execute_opcode_dxyn s).stack = s.stack) ∧
    ((execute_opcode_dxyn s).rom = s.rom) := by
  have hn : (s.opcode &&& 0x000f) ≤ GFX_H := by
    have := Nat.and_le_right (n := s.opcode) (m := 0x000f)
    unfold GFX_H
    omega
  obtain ⟨rg, rd, rf, rv, rram, rri, rpc, rop, rk, rdt, rst, rsp, rstk, rrom⟩ :=
    drawRowFold_spec (s.v ((s.opcode &&& 0x0f00) >>> 8)) (s.v ((s.opcode &&& 0x00f0) >>> 4))
      (List.range (s.opcode &&& 0x000f))
      (pairwise_range_mod (s.v ((s.opcode &&& 0x00f0) >>> 4)) GFX_H (s.opcode &&& 0x000f) hn)
      { s with v := fun i => if i = 0xf then 0 else s.v i }
  dsimp only at rg rd rf rv rram rri rpc rop rk rdt rst rsp rstk rrom
  unfold execute_opcode_dxyn spriteHit spriteNewlyLit spriteCollision
  refine ⟨?_, ?_, ?_, ?_, ?_, ?_, ?_, ?_, ?_, ?_, ?_, ?_, ?_, ?_⟩
  · intro a b
    exact rg a b
  · exact rd
  · rw [rf]
    simp
  · intro i hi
    rw [rv i hi]
    simp [hi]
  · exact rram
  · exact rri
  · dsimp only
    rw [rpc]
  · exact rop
  · exact rk
  · exact rdt
  · exact rst
  · exact rsp
  · exact rstk
  · exact rrom

end Chip8

namespace Chip8

/-! ### The machine-integer invariant and its preservation -/

lemma inv_frame_update (s : Emu) (hs : Inv s) : Inv (execute_opcode_00e0 s) := hs

lemma inv_v_update (s : Emu) (hs : Inv s) (x val : Nat) (hval : val ≤ 255) :
    Inv { s with v := fun i => if i = x then val else s.v i, pc := s.pc + 2 } := by
  obtain ⟨hv, hram, hri, hdt, hst, hrom⟩ := hs
  refine ⟨fun i => ?_, hram, hri, hdt, hst, hrom⟩
  by_cases h : i = x <;> simp [h, hval, hv i]

lemma inv_6xnn (s : Emu) (hs : Inv s) : Inv (execute_opcode_6xnn s) :=
  inv_v_update s hs _ _ Nat.and_le_right

lemma inv_7xnn (s : Emu) (hs : Inv s) : Inv (execute_opcode_7xnn s) :=
  inv_v_update s hs _ _ (mod256_le _)

lemma inv_8xy0 (s : Emu) (hs : Inv s) : Inv (execute_opcode_8xy0 s) :=
  inv_v_update s hs _ _ (hs.1 _)

lemma inv_8xy1 (s : Emu) (hs : Inv s) : Inv (execute_opcode_8xy1 s) := by
  refine inv_v_update s hs _ _ ?_
  have h := Nat.or_lt_two_pow (n := 8)
    (Nat.lt_succ_of_le (hs.1 ((s.opcode &&& 0x0f00) >>> 8)))
    (Nat.lt_succ_of_le (hs.1 ((s.opcode &&& 0x00f0) >>> 4)))
  omega

lemma inv_8xy2 (s : Emu) (hs : Inv s) : Inv (execute_opcode_8xy2 s) := by
  refine inv_v_update s hs _ _ ?_
  exact le_trans Nat.and_le_right (hs.1 _)

lemma inv_8xy3 (s : Emu) (hs : Inv s) : Inv (execute_opcode_8xy3 s) := by
  refine inv_v_update s hs _ _ ?_
  have h := Nat.xor_lt_two_pow (n := 8)
    (Nat.lt_succ_of_le (hs.1 ((s.opcode &&& 0x0f00) >>> 8)))
    (Nat.lt_succ_of_le (hs.1 ((s.opcode &&& 0x00f0) >>> 4)))
  omega

lemma inv_v2_update (s : Emu) (hs : Inv s) (x val flag : Nat)
    (hval : val ≤ 255) (hflag : flag ≤ 255) :
    Inv { s with
      v := fun i => if i = 0xf then flag
        else if i = x then val else s.v i,
      pc := s.pc + 2 } := by
  obtain ⟨hv, hram, hri, hdt, hst, hrom⟩ := hs
  refine ⟨fun i => ?_, hram, hri, hdt, hst, hrom⟩
  show (if i = 0xf then flag else if i = x then val else s.v i) ≤ 255
  split_ifs <;> first | exact hflag | exact hval | exact hv i

lemma inv_8xy4 (s : Emu) (hs : Inv s) : Inv (execute_opcode_8xy4 s) := by
  unfold execute_opcode_8xy4 wrapping_add8
  refine inv_v2_update s hs _ _ _ (mod256_le _) ?_
  split_ifs <;> omega

lemma inv_8xy5 (s : Emu) (hs : Inv s) : Inv (execute_opcode_8xy5 s) := by
  unfold execute_opcode_8xy5 wrapping_sub8
  refine inv_v2_update s hs _ _ _ (mod256_le _) ?_
  split_ifs <;> omega

lemma inv_8xy7 (s : Emu) (hs : Inv s) : Inv (execute_opcode_8xy7 s) := by
  unfold execute_opcode_8xy7 wrapping_sub8
  refine inv_v2_update s hs _ _ _ (mod256_le _) ?_
  split_ifs <;> omega

lemma inv_shift_update (s : Emu) (hs : Inv s) (x src flag : Nat)
    (hsrc : src ≤ 255) (hflag : flag ≤ 255) :
    Inv { s with
      v := fun i => if i = x then src
        else if i = 0xf then flag else s.v i,
      pc := s.pc + 2 } := by
  obtain ⟨hv, hram, hri, hdt, hst, hrom⟩ := hs
  refine ⟨fun i => ?_, hram, hri, hdt, hst, hrom⟩
  show (if i = x then src else if i = 0xf then flag else s.v i) ≤ 255
  split_ifs <;> first | exact hsrc | exact hflag | exact hv i

lemma inv_8xy6 (s : Emu) (hs : Inv s) : Inv (execute_opcode_8xy6 s) := by
  unfold execute_opcode_8xy6
  refine inv_shift_update s hs _ _ _ ?_ ?_
  · show ((if ((s.opcode &&& 0x0f00) >>> 8) = 0xf
        then s.v ((s.opcode &&& 0x0f00) >>> 8) &&& 0x01
        else s.v ((s.opcode &&& 0x0f00) >>> 8)) >>> 1) ≤ 255
    rw [Nat.shiftRight_eq_div_pow]
    have hx := hs.1 ((s.opcode &&& 0x0f00) >>> 8)
    have h15 : s.v ((s.opcode &&& 0x0f00) >>> 8) &&& 0x01 ≤ 1 := Nat.and_le_right
    split_ifs <;> omega
  · exact le_trans Nat.and_le_right (by omega)

lemma inv_8xye (s : Emu) (hs : Inv s) : Inv (execute_opcode_8xye s) := by
  unfold execute_opcode_8xye
  refine inv_shift_update s hs _ _ _ (mod256_le _) ?_
  exact le_trans Nat.and_le_right (by omega)

lemma inv_annn (s : Emu) (hs : Inv s) : Inv (execute_opcode_annn s) := by
  obtain ⟨hv, hram, hri, hdt, hst, hrom⟩ := hs
  exact ⟨hv, hram, Nat.and_le_right, hdt, hst, hrom⟩

lemma inv_cxnn (rnd : Nat) (s : Emu) (hs : Inv s) : Inv (execute_opcode_cxnn rnd s) :=
  inv_v_update s hs _ _ (le_trans Nat.and_le_right Nat.and_le_right)

lemma inv_fx07 (s : Emu) (hs : Inv s) : Inv (execute_opcode_fx07 s) :=
  inv_v_update s hs _ _ hs.2.2.2.1

lemma inv_fx15 (s : Emu) (hs : Inv s) : Inv (execute_opcode_fx15 s) := by
  obtain ⟨hv, hram, hri, hdt, hst, hrom⟩ := hs
  exact ⟨hv, hram, hri, hv _, hst, hrom⟩

lemma inv_fx18 (s : Emu) (hs : Inv s) : Inv (execute_opcode_fx18 s) := by
  obtain ⟨hv, hram, hri, hdt, hst, hrom⟩ := hs
  exact ⟨hv, hram, hri, hdt, hv _, hrom⟩

lemma inv_fx1e (s : Emu) (hs : Inv s) : Inv (execute_opcode_fx1e s) := by
  obtain ⟨hv, hram, hri, hdt, hst, hrom⟩ := hs
  have hmod : (s.ram_idx + s.v ((s.opcode &&& 0x0f00) >>> 8)) % (0x0fff + 1) ≤ 0xfff :=
    by omega
  refine ⟨fun i => ?_, hram, hmod, hdt, hst, hrom⟩
  show (if i = 0xf
      then (if s.ram_idx + s.v ((s.opcode &&& 0x0f00) >>> 8) > 0x0fff then 1 else 0)
      else s.v i) ≤ 255
  split_ifs <;> first | omega | exact hv i

lemma inv_fx29 (s : Emu) (hs : Inv s) : Inv (execute_opcode_fx29 s) := by
  obtain ⟨hv, hram, hri, hdt, hst, hrom⟩ := hs
  refine ⟨hv, hram, ?_, hdt, hst, hrom⟩
  show 0 + s.v ((s.opcode &&& 0x0f02) >>> 8) * 5 ≤ 0xfff
  have := hv ((s.opcode &&& 0x0f02) >>> 8)
  omega

lemma inv_fx33 (s : Emu) (hs : Inv s) : Inv (execute_opcode_fx33 s) := by
  obtain ⟨hv, hram, hri, hdt, hst, hrom⟩ := hs
  refine ⟨hv, fun a => ?_, hri, hdt, hst, hrom⟩
  show (if a = s.ram_idx + 2 then s.v ((s.opcode &&& 0x0f02) >>> 8) % 10
    else if a = s.ram_idx + 1 then s.v ((s.opcode &&& 0x0f02) >>> 8) / 10 % 10
    else if a = s.ram_idx + 0 then s.v ((s.opcode &&& 0x0f02) >>> 8) / 10 / 10 % 10
    else s.ram a) ≤ 255
  split_ifs <;> first | omega | exact hram a

end Chip8

namespace Chip8

lemma inv_00ee (s : Emu) (hs : Inv s) : Inv (execute_opcode_00ee s) := hs

lemma inv_fx0a_fold (x : Nat) (l : List Nat) (hl : ∀ i ∈ l, i ≤ 255) :
    ∀ s, Inv s → Inv (l.foldl
      (fun acc i =>
        if acc.keys i then
          { acc with v := fun j => if j = x then i else acc.v j,
                     pc := acc.pc + 2 }
        else acc) s) := by
  induction l with
  | nil => exact fun s hs => hs
  | cons i l ih =>
    intro s hs
    simp only [List.foldl_cons]
    refine ih (fun j hj => hl j (by simp [hj])) _ ?_
    rcases Bool.eq_false_or_eq_true (s.keys i) with hk | hk
    · rw [if_pos hk]
      exact inv_v_update s hs x i (hl i (by simp))
    · rw [if_neg (by rw [hk]; exact Bool.false_ne_true)]
      exact hs

lemma inv_fx0a (s : Emu) (hs : Inv s) : Inv (execute_opcode_fx0a s) := by
  unfold execute_opcode_fx0a
  refine inv_fx0a_fold _ (List.range 16) (fun i hi => ?_) s hs
  have := List.mem_range.mp hi
  omega

lemma inv_fx55_fold (l : List Nat) :
    ∀ s, Inv s → Inv (l.foldl
      (fun acc i =>
        { acc with ram := fun a =>
            if a = acc.ram_idx + i then acc.v i else acc.ram a }) s) := by
  induction l with
  | nil => exact fun s hs => hs
  | cons i l ih =>
    intro s hs
    simp only [List.foldl_cons]
    refine ih _ ?_
    obtain ⟨hv, hram, hri, hdt, hst, hrom⟩ := hs
    refine ⟨hv, fun a => ?_, hri, hdt, hst, hrom⟩
    show (if a = s.ram_idx + i then s.v i else s.ram a) ≤ 255
    split_ifs
    · exact hv i
    · exact hram a

lemma inv_fx55 (s : Emu) (hs : Inv s) : Inv (execute_opcode_fx55 s) := by
  unfold execute_opcode_fx55
  exact inv_fx55_fold (List.range ((s.opcode &&& 0x0f02) >>> 8 + 1)) s hs

lemma inv_fx65_fold (l : List Nat) :
    ∀ s, Inv s → Inv (l.foldl
      (fun acc i =>
        { acc with v := fun j =>
            if j = i then acc.ram (acc.ram_idx + i) else acc.v j }) s) := by
  induction l with
  | nil => exact fun s hs => hs
  | cons i l ih =>
    intro s hs
    simp only [List.foldl_cons]
    refine ih _ ?_
    obtain ⟨hv, hram, hri, hdt, hst, hrom⟩ := hs
    refine ⟨fun j => ?_, hram, hri, hdt, hst, hrom⟩
    show (if j = i then s.ram (s.ram_idx + i) else s.v j) ≤ 255
    split_ifs
    · exact hram _
    · exact hv j

lemma inv_fx65 (s : Emu) (hs : Inv s) : Inv (execute_opcode_fx65 s) := by
  unfold execute_opcode_fx65
  exact inv_fx65_fold (List.range ((s.opcode &&& 0x0f02) >>> 8 + 1)) s hs

lemma inv_dxyn (s : Emu) (hs : Inv s) : Inv (execute_opcode_dxyn s) := by
  obtain ⟨hg, hd, hf, hvv, hram, hri, hpc, hop, hk, hdt2, hst2, hsp, hstk, hrom⟩ :=
    dxyn_spec s
  obtain ⟨hv, hram0, hri0, hdt0, hst0, hrom0⟩ := hs
  refine ⟨fun i => ?_, fun a => ?_, ?_, ?_, ?_, ?_⟩
  · by_cases h : i = 0xf
    · rw [h, hf]
      split_ifs <;> omega
    · rw [hvv i h]
      exact hv i
  · rw [hram]
    exact hram0 a
  · rw [hri]
    exact hri0
  · rw [hdt2]
    exact hdt0
  · rw [hst2]
    exact hst0
  · rw [hrom]
    exact hrom0

lemma inv_fetch (s : Emu) (hs : Inv s) : Inv (fetch_opcode s) := hs

end Chip8

namespace Chip8

lemma inv_decode (rnd : Nat) (s : Emu) (hs : Inv s) :
    ∀ s', decode_and_execute_opcode rnd s = some s' → Inv s' := by
  intro s' h
  unfold decode_and_execute_opcode at h
  dsimp only at h
  by_cases hc1 : s.opcode &&& 0xf000 = 0x0000
  · rw [if_pos hc1] at h
    by_cases hc2 : s.opcode &&& 0x00ff = 0x00e0
    · rw [if_pos hc2] at h
      obtain rfl := Option.some.inj h
      exact hs
    · rw [if_neg hc2] at h
      by_cases hc3 : s.opcode &&& 0x00ff = 0x00ee
      · rw [if_pos hc3] at h
        obtain rfl := Option.some.inj h
        exact hs
      · rw [if_neg hc3] at h
        exact Option.noConfusion h
  · rw [if_neg hc1] at h
    by_cases hc4 : s.opcode &&& 0xf000 = 0x1000
    · rw [if_pos hc4] at h
      obtain rfl := Option.some.inj h
      exact hs
    · rw [if_neg hc4] at h
      by_cases hc5 : s.opcode &&& 0xf000 = 0x2000
      · rw [if_pos hc5] at h
        obtain rfl := Option.some.inj h
        exact hs
      · rw [if_neg hc5] at h
        by_cases hc6 : s.opcode &&& 0xf000 = 0x3000
        · rw [if_pos hc6] at h
          obtain rfl := Option.some.inj h
          exact hs
        · rw [if_neg hc6] at h
          by_cases hc7 : s.opcode &&& 0xf000 = 0x4000
          · rw [if_pos hc7] at h
            obtain rfl := Option.some.inj h
            exact hs
          · rw [if_neg hc7] at h
            by_cases hc8 : s.opcode &&& 0xf000 = 0x5000
            · rw [if_pos hc8] at h
              by_cases hc9 : s.opcode &&& 0x000f = 0x0000
              · rw [if_pos hc9] at h
                obtain rfl := Option.some.inj h
                exact hs
              · rw [if_neg hc9] at h
                exact Option.noConfusion h
            · rw [if_neg hc8] at h
              by_cases hc10 : s.opcode &&& 0xf000 = 0x6000
              · rw [if_pos hc10] at h
                obtain rfl := Option.some.inj h
                exact inv_6xnn s hs
              · rw [if_neg hc10] at h
                by_cases hc11 : s.opcode &&& 0xf000 = 0x7000
                · rw [if_pos hc11] at h
                  obtain rfl := Option.some.inj h
                  exact inv_7xnn s hs
                · rw [if_neg hc11] at h
                  by_cases hc12 : s.opcode &&& 0xf000 = 0x8000
                  · rw [if_pos hc12] at h
                    by_cases hc13 : s.opcode &&& 0x000f = 0x0000
                    · rw [if_pos hc13] at h
                      obtain rfl := Option.some.inj h
                      exact inv_8xy0 s hs
                    · rw [if_neg hc13] at h
                      by_cases hc14 : s.opcode &&& 0x000f = 0x0001
                      · rw [if_pos hc14] at h
                        obtain rfl := Option.some.inj h
                        exact inv_8xy1 s hs
                      · rw [if_neg hc14] at h
                        by_cases hc15 : s.opcode &&& 0x000f = 0x0002
                        · rw [if_pos hc15] at h
                          obtain rfl := Option.some.inj h
                          exact inv_8xy2 s hs
                        · rw [if_neg hc15] at h
                          by_cases hc16 : s.opcode &&& 0x000f = 0x0003
                          · rw [if_pos hc16] at h
                            obtain rfl := Option.some.inj h
                            exact inv_8xy3 s hs
                          · rw [if_neg hc16] at h
                            by_cases hc17 : s.opcode &&& 0x000f = 0x0004
                            · rw [if_pos hc17] at h
                              obtain rfl := Option.some.inj h
                              exact inv_8xy4 s hs
                            · rw [if_neg hc17] at h
                              by_cases hc18 : s.opcode &&& 0x000f = 0x0005
                              · rw [if_pos hc18] at h
                                obtain rfl := Option.some.inj h
                                exact inv_8xy5 s hs
                              · rw [if_neg hc18] at h
                                by_cases hc19 : s.opcode &&& 0x000f = 0x0006
                                · rw [if_pos hc19] at h
                                  obtain rfl := Option.some.inj h
                                  exact inv_8xy6 s hs
                                · rw [if_neg hc19] at h
                                  by_cases hc20 : s.opcode &&& 0x000f = 0x0007
                                  · rw [if_pos hc20] at h
                                    obtain rfl := Option.some.inj h
                                    exact inv_8xy7 s hs
                                  · rw [if_neg hc20] at h
                                    by_cases hc21 : s.opcode &&& 0x000f = 0x000e
                                    · rw [if_pos hc21] at h
                                      obtain rfl := Option.some.inj h
                                      exact inv_8xye s hs
                                    · rw [if_neg hc21] at h
                                      exact Option.noConfusion h
                  · rw [if_neg hc12] at h
                    by_cases hc22 : s.opcode &&& 0xf000 = 0x9000
                    · rw [if_pos hc22] at h
                      obtain rfl := Option.some.inj h
                      exact hs
                    · rw [if_neg hc22] at h
                      by_cases hc23 : s.opcode &&& 0xf000 = 0xa000
                      · rw [if_pos hc23] at h
                        obtain rfl := Option.some.inj h
                        exact inv_annn s hs
                      · rw [if_neg hc23] at h
                        by_cases hc24 : s.opcode &&& 0xf000 = 0xb000
                        · rw [if_pos hc24] at h
                          obtain rfl := Option.some.inj h
                          exact hs
                        · rw [if_neg hc24] at h
                          by_cases hc25 : s.opcode &&& 0xf000 = 0xc000
                          · rw [if_pos hc25] at h
                            obtain rfl := Option.some.inj h
                            exact inv_cxnn rnd s hs
                          · rw [if_neg hc25] at h
                            by_cases hc26 : s.opcode &&& 0xf000 = 0xd000
                            · rw [if_pos hc26] at h
                              obtain rfl := Option.some.inj h
                              exact inv_dxyn s hs
                            · rw [if_neg hc26] at h
                              by_cases hc27 : s.opcode &&& 0xf000 = 0xe000
                              · rw [if_pos hc27] at h
                                by_cases hc28 : s.opcode &&& 0x000f = 0x000e
                                · rw [if_pos hc28] at h
                                  obtain rfl := Option.some.inj h
                                  exact hs
                                · rw [if_neg hc28] at h
                                  by_cases hc29 : s.opcode &&& 0x000f = 0x0001
                                  · rw [if_pos hc29] at h
                                    obtain rfl := Option.some.inj h
                                    exact hs
                                  · rw [if_neg hc29] at h
                                    exact Option.noConfusion h
                              · rw [if_neg hc27] at h
                                by_cases hc30 : s.opcode &&& 0xf000 = 0xf000
                                · rw [if_pos hc30] at h
                                  by_cases hc31 : s.opcode &&& 0x00ff = 0x0007
                                  · rw [if_pos hc31] at h
                                    obtain rfl := Option.some.inj h
                                    exact inv_fx07 s hs
                                  · rw [if_neg hc31] at h
                                    by_cases hc32 : s.opcode &&& 0x00ff = 0x000a
                                    · rw [if_pos hc32] at h
                                      obtain rfl := Option.some.inj h
                                      exact inv_fx0a s hs
                                    · rw [if_neg hc32] at h
                                      by_cases hc33 : s.opcode &&& 0x00ff = 0x0015
                                      · rw [if_pos hc33] at h
                                        obtain rfl := Option.some.inj h
                                        exact inv_fx15 s hs
                                      · rw [if_neg hc33] at h
                                        by_cases hc34 : s.opcode &&& 0x00ff = 0x0018
                                        · rw [if_pos hc34] at h
                                          obtain rfl := Option.some.inj h
                                          exact inv_fx18 s hs
                                        · rw [if_neg hc34] at h
                                          by_cases hc35 : s.opcode &&& 0x00ff = 0x001e
                                          · rw [if_pos hc35] at h
                                            obtain rfl := Option.some.inj h
                                            exact inv_fx1e s hs
                                          · rw [if_neg hc35] at h
                                            by_cases hc36 : s.opcode &&& 0x00ff = 0x0029
                                            · rw [if_pos hc36] at h
                                              obtain rfl := Option.some.inj h
                                              exact inv_fx29 s hs
                                            · rw [if_neg hc36] at h
                                              by_cases hc37 : s.opcode &&& 0x00ff = 0x0033
                                              · rw [if_pos hc37] at h
                                                obtain rfl := Option.some.inj h
                                                exact inv_fx33 s hs
                                              · rw [if_neg hc37] at h
                                                by_cases hc38 : s.opcode &&& 0x00ff = 0x0055
                                                · rw [if_pos hc38] at h
                                                  obtain rfl := Option.some.inj h
                                                  exact inv_fx55 s hs
                                                · rw [if_neg hc38] at h
                                                  by_cases hc39 : s.opcode &&& 0x00ff = 0x0065
                                                  · rw [if_pos hc39] at h
                                                    obtain rfl := Option.some.inj h
                                                    exact inv_fx65 s hs
                                                  · rw [if_neg hc39] at h
                                                    exact Option.noConfusion h
                                · rw [if_neg hc30] at h
                                  exact Option.noConfusion h

end Chip8

namespace Chip8

lemma inv_cycle (rnd : Nat) (s : Emu) (hs : Inv s) :
    ∀ s', execute_cycle rnd s = some s' → Inv s' :=
  fun s' h => inv_decode rnd (fetch_opcode s) (inv_fetch s hs) s' h

lemma inv_new : Inv Emu.new := by
  refine ⟨fun i => ?_, fun a => ?_, ?_, ?_, ?_, ?_⟩
  · show (0 : Nat) ≤ 255
    omega
  · show (if a < FONT_MAP.length then FONT_MAP.getD a 0 else 0) ≤ 255
    split_ifs
    · exact getD_le_of_all (by decide) a
    · omega
  · show (0 : Nat) ≤ 0xfff
    omega
  · show (0 : Nat) ≤ 255
    omega
  · show (0 : Nat) ≤ 255
    omega
  · show ∀ b ∈ ([] : List Nat), b ≤ 255
    simp

lemma inv_load_rom (s : Emu) (r : List Nat) (hr : ∀ b ∈ r, b ≤ 255) (hs : Inv s) :
    ∀ s', (s.load_rom r).toOption = some s' → Inv s' := by
  intro s' h
  unfold Emu.load_rom at h
  split_ifs at h with hlen
  · simp [Except.toOption] at h
  · simp only [Except.toOption] at h
    obtain rfl := Option.some.inj h
    obtain ⟨hv0, hram0, hri0, hdt0, hst0, hrom0⟩ := hs
    obtain ⟨h1, h2, hv, hpc, hri, hsp, hstk, hg, hk, hdt, hst2, hdr, hop⟩ :=
      load_rom_copy_spec { s with rom := r } r.length
    refine ⟨fun i => ?_, fun a => ?_, ?_, ?_, ?_, ?_⟩
    · rw [hv]
      exact hv0 i
    · rw [h2 a]
      split_ifs
      · exact getD_le_of_all hr _
      · exact hram0 a
    · rw [hri]
      exact hri0
    · rw [hdt]
      exact hdt0
    · rw [hst2]
      exact hst0
    · rw [h1]
      exact hr

lemma inv_timers (s : Emu) (hs : Inv s) : Inv s.update_timers := by
  obtain ⟨hspec1, hspec2, hspec3, hspec4, hspec5, hspec6⟩ := update_timers_spec s
  obtain ⟨hv, hram, hri, hdt, hst, hrom⟩ := hs
  refine ⟨fun i => ?_, fun a => ?_, ?_, ?_, ?_, ?_⟩
  · rw [hspec3]
    exact hv i
  · rw [hspec4]
    exact hram a
  · rw [hspec5]
    exact hri
  · rw [hspec1]
    omega
  · rw [hspec2]
    omega
  · rw [hspec6]
    exact hrom

lemma inv_runOp (s : Emu) (op : Op) (hop : OpBytesBounded op) (hs : Inv s) :
    ∀ s', runOp s op = some s' → Inv s' := by
  cases op with
  | loadRom r => exact inv_load_rom s r hop hs
  | reset => exact fun s' h => inv_load_rom Emu.new s.rom hs.2.2.2.2.2 inv_new s' h
  | cycle rnd => exact inv_cycle rnd s hs
  | timers =>
    intro s' h
    obtain rfl := Option.some.inj h
    exact inv_timers s hs

lemma runOps_none (ops : List Op) :
    ops.foldl (fun acc op => acc.bind (fun t => runOp t op)) none = none := by
  induction ops with
  | nil => rfl
  | cons op ops ih =>
    simp only [List.foldl_cons, Option.none_bind]
    exact ih

lemma inv_runOps (ops : List Op) (hops : ∀ op ∈ ops, OpBytesBounded op) :
    ∀ s, Inv s → ∀ s', runOps s ops = some s' → Inv s' := by
  induction ops with
  | nil =>
    intro s hs s' h
    obtain rfl := Option.some.inj h
    exact hs
  | cons op ops ih =>
    intro s hs s' h
    unfold runOps at h
    simp only [List.foldl_cons, Option.some_bind] at h
    cases hop : runOp s op with
    | none =>
      rw [hop, runOps_none] at h
      exact Option.noConfusion h
    | some t =>
      rw [hop] at h
      have ht : Inv t := inv_runOp s op (hops op (by simp)) hs t hop
      exact ih (fun o ho => hops o (by simp [ho])) t ht s' h

end Chip8

namespace Chip8

/-! ### Claim theorems -/

/-- Claim C1: the spec says the blocking key-wait (0xFX0A) stores the LOWEST
pressed key index and advances pc by exactly 2 regardless of how many keys
are pressed.  The code's scan loop has no break, so with keys 3 and 5 both
pressed and instruction 0xF20A at pc = 0x200, one execute_cycle leaves
v2 = 5 (the highest index) and pc = 0x204 (advanced by 4), contradicting
the claimed v2 = 3, pc = 0x202. -/
theorem c1_fx0a_divergence :
    (execute_cycle 0 emuKeysPressed).map Emu.pc = some 516 ∧
    (execute_cycle 0 emuKeysPressed).map (fun t => t.v 2) = some 5 ∧
    (execute_cycle 0 emuKeysPressed).map Emu.pc ≠ some 514 ∧
    (execute_cycle 0 emuKeysPressed).map (fun t => t.v 2) ≠ some 3 := by
  decide

/-- Claim C2: the spec says the revised left shift (0x8XYE) puts the MOST
significant bit (bit 7) of vx into vf.  The code computes `v[x] & 0x01`,
the least significant bit: on v[0xa] = 0x80 (bit 7 set, bit 0 clear) and
instruction 0x8ABE the dispatcher leaves vf = 0, not 1 (while the shifted
result (0x80 << 1) mod 256 = 0 in v[0xa] is as specified). -/
theorem c2_8xye_flag_divergence :
    (decode_and_execute_opcode 0 emuShiftMsb).map (fun t => t.v 0xf) = some 0 ∧
    (decode_and_execute_opcode 0 emuShiftMsb).map (fun t => t.v 0xa) = some 0 ∧
    (decode_and_execute_opcode 0 emuShiftMsb).map (fun t => t.v 0xf) ≠ some 1 := by
  decide

/-- Claim C3 counterexample: there is no quirk toggle — with the
spec-modelled toggle set to "original", the spec dispatcher disagrees with
the source dispatcher on v[0xa] = 5, v[0xb] = 4, instruction 0x8AB6 (source
gives vf = 1, the original variant gives vf = 0), so the source dispatcher
does not execute the original variant for any host configuration. -/
theorem c3_shift_quirk_counterexample :
    (decode_and_execute_opcode 0 emuShiftToggle).map (fun t => t.v 0xf) = some 1 ∧
    (decode_with_quirk_toggle true 0 emuShiftToggle).map (fun t => t.v 0xf) = some 0 := by
  decide

/-- Claim C3 (amended): both shift variants exist in the source, but not
behind a host-configurable toggle: the dispatcher unconditionally behaves
as the spec's toggle dispatcher with the toggle fixed to the revised
variant; the original variants are dead code reachable only from tests. -/
theorem c3_shift_quirk_amended (rnd : Nat) (s : Emu) :
    decode_and_execute_opcode rnd s = decode_with_quirk_toggle false rnd s := rfl

/-- Claim C4: load_rom rejects images over 3584 bytes with a capacity error
and (in the error case) returns no new state, leaving the machine
unmodified; otherwise it succeeds, caches the rom, copies it into ram
starting at 0x200, leaves the rest of ram and every other field unchanged. -/
theorem c4_load_rom (s : Emu) (rom : List Nat) :
    (MAX_ROM_SIZE < rom.length →
      s.load_rom rom = Except.error "Program too large to fit into memory") ∧
    (rom.length ≤ MAX_ROM_SIZE → ∃ s₂, s.load_rom rom = Except.ok s₂ ∧
      s₂.rom = rom ∧
      (∀ i, i < rom.length → s₂.ram (PROGRAM_START + i) = rom.getD i 0) ∧
      (∀ a, a < PROGRAM_START → s₂.ram a = s.ram a) ∧
      (∀ a, PROGRAM_START + rom.length ≤ a → s₂.ram a = s.ram a) ∧
      s₂.v = s.v ∧ s₂.pc = s.pc ∧ s₂.ram_idx = s.ram_idx ∧ s₂.sp = s.sp ∧
      s₂.stack = s.stack ∧ s₂.gfx = s.gfx ∧ s₂.keys = s.keys ∧ s₂.dt = s.dt ∧
      s₂.st = s.st ∧ s₂.draw = s.draw ∧ s₂.opcode = s.opcode) := by
  constructor
  · intro h
    unfold Emu.load_rom
    rw [if_pos (by omega)]
  · intro h
    refine ⟨load_rom_copy { s with rom := rom } rom.length, ?_, ?_⟩
    · unfold Emu.load_rom
      rw [if_neg (by omega)]
    · obtain ⟨h1, h2, hv, hpc, hri, hsp, hstk, hg, hk, hdt, hstm, hdr, hop⟩ :=
        load_rom_copy_spec { s with rom := rom } rom.length
      refine ⟨h1, fun i hi => ?_, fun a ha => ?_, fun a ha => ?_,
        hv, hpc, hri, hsp, hstk, hg, hk, hdt, hstm, hdr, hop⟩
      · rw [h2]
        have hc : PROGRAM_START ≤ PROGRAM_START + i ∧
            PROGRAM_START + i < PROGRAM_START + rom.length := by omega
        rw [if_pos hc, Nat.add_sub_cancel_left]
      · rw [h2]
        have hc : ¬ (PROGRAM_START ≤ a ∧ a < PROGRAM_START + rom.length) := by omega
        rw [if_neg hc]
      · rw [h2]
        have hc : ¬ (PROGRAM_START ≤ a ∧ a < PROGRAM_START + rom.length) := by omega
        rw [if_neg hc]

/-- Witness for C4: loading the three-byte image [1, 2, 3] into a fresh
machine succeeds with the stated effect. -/
theorem c4_load_rom_witness : ∃ s₂, Emu.new.load_rom [1, 2, 3] = Except.ok s₂ ∧
    s₂.rom = [1, 2, 3] ∧
    (∀ i, i < [1, 2, 3].length → s₂.ram (PROGRAM_START + i) = [1, 2, 3].getD i 0) ∧
    (∀ a, a < PROGRAM_START → s₂.ram a = Emu.new.ram a) ∧
    (∀ a, PROGRAM_START + [1, 2, 3].length ≤ a → s₂.ram a = Emu.new.ram a) ∧
    s₂.v = Emu.new.v ∧ s₂.pc = Emu.new.pc ∧ s₂.ram_idx = Emu.new.ram_idx ∧
    s₂.sp = Emu.new.sp ∧ s₂.stack = Emu.new.stack ∧ s₂.gfx = Emu.new.gfx ∧
    s₂.keys = Emu.new.keys ∧ s₂.dt = Emu.new.dt ∧ s₂.st = Emu.new.st ∧
    s₂.draw = Emu.new.draw ∧ s₂.opcode = Emu.new.opcode :=
  (c4_load_rom Emu.new [1, 2, 3]).2 (by decide)

/-- Claim C5: for byte-valued operands, add-with-carry (0x8XY4) stores the
sum mod 256 and sets vf to 1 iff the true sum exceeds 255; subtract
(0x8XY5) stores the mathematical difference mod 256 (as an integer
operation) and sets vf to 0 iff vy > vx; reverse subtract (0x8XY7) stores
vy - vx mod 256 and sets vf to 0 iff vx > vy. -/
theorem c5_flagged_arithmetic (s : Emu) (x y : Nat)
    (hxdef : x = (s.opcode &&& 0x0f00) >>> 8)
    (hydef : y = (s.opcode &&& 0x00f0) >>> 4)
    (hx : s.v x ≤ 255) (hy : s.v y ≤ 255) (hxf : x ≠ 0xf) :
    ((execute_opcode_8xy4 s).v x = (s.v x + s.v y) % 256) ∧
    ((execute_opcode_8xy4 s).v 0xf = if 255 < s.v x + s.v y then 1 else 0) ∧
    ((execute_opcode_8xy5 s).v x = (((s.v x : Int) - (s.v y : Int)) % 256).toNat) ∧
    ((execute_opcode_8xy5 s).v 0xf = if s.v x < s.v y then 0 else 1) ∧
    ((execute_opcode_8xy7 s).v x = (((s.v y : Int) - (s.v x : Int)) % 256).toNat) ∧
    ((execute_opcode_8xy7 s).v 0xf = if s.v y < s.v x then 0 else 1) := by
  subst hxdef hydef
  unfold execute_opcode_8xy4 execute_opcode_8xy5 execute_opcode_8xy7
  simp only [wrapping_add8, wrapping_sub8]
  set x := (s.opcode &&& 0x0f00) >>> 8 with hx0
  set y := (s.opcode &&& 0x00f0) >>> 4 with hy0
  refine ⟨?_, ?_, ?_, ?_, ?_, ?_⟩
  · simp [hxf]
  · simp
    split_ifs <;> omega
  · simp [hxf]
    omega
  · simp
  · simp [hxf]
    omega
  · simp

/-- Witness for C5 at the spec's example 0xFF + 0x03 (with x = 0xa, y = 0xb,
instruction 0x8AB4): the stored register is (0xFF + 0x03) % 256 = 0x02 and
the flag is 1. -/
theorem c5_flagged_arithmetic_witness :
    ((execute_opcode_8xy4 emuAddCarry).v 10 =
      (emuAddCarry.v 10 + emuAddCarry.v 11) % 256) ∧
    ((execute_opcode_8xy4 emuAddCarry).v 0xf =
      if 255 < emuAddCarry.v 10 + emuAddCarry.v 11 then 1 else 0) ∧
    ((execute_opcode_8xy5 emuAddCarry).v 10 =
      (((emuAddCarry.v 10 : Int) - (emuAddCarry.v 11 : Int)) % 256).toNat) ∧
    ((execute_opcode_8xy5 emuAddCarry).v 0xf =
      if emuAddCarry.v 10 < emuAddCarry.v 11 then 0 else 1) ∧
    ((execute_opcode_8xy7 emuAddCarry).v 10 =
      (((emuAddCarry.v 11 : Int) - (emuAddCarry.v 10 : Int)) % 256).toNat) ∧
    ((execute_opcode_8xy7 emuAddCarry).v 0xf =
      if emuAddCarry.v 11 < emuAddCarry.v 10 then 0 else 1) :=
  c5_flagged_arithmetic emuAddCarry 10 11 (by decide) (by decide)
    (by decide) (by decide) (by decide)

/-- Claim C6: in the sprite draw (0xDXYN), the final vf is 1 exactly when
some set sprite bit lands on a currently-lit pixel (and 0 otherwise,
regardless of vf's prior value, since vf is zeroed first); the dirty flag
is raised exactly when some set sprite bit lands on a currently-unlit
pixel (never merely because a pixel becomes unlit); and every display cell
(a, b) is flipped iff some set sprite bit targets it at coordinates
((vx + column) mod GFX_W, (vy + row) mod GFX_H), the coordinates wrapping
independently. -/
theorem c6_dxyn_draw_spec (s : Emu) :
    ((execute_opcode_dxyn s).v 0xf = if spriteCollision s then 1 else 0) ∧
    ((execute_opcode_dxyn s).draw = (s.draw || spriteNewlyLit s)) ∧
    (∀ a b, (execute_opcode_dxyn s).gfx a b = xor (s.gfx a b) (spriteHit s a b)) ∧
    (∀ i, i ≠ 0xf → (execute_opcode_dxyn s).v i = s.v i) := by
  obtain ⟨hg, hd, hf, hv, _⟩ := dxyn_spec s
  exact ⟨hf, hd, hg, hv⟩

/-- Claim C7 counterexample: the claim "the second draw sets the collision
flag vF to 1" fails for the sprite 0xD120 of height 0: drawing it twice
leaves vf = 0. -/
theorem c7_double_draw_counterexample :
    (execute_opcode_dxyn (execute_opcode_dxyn emuDrawTwice)).v 0xf = 0 ∧
    (execute_opcode_dxyn (execute_opcode_dxyn emuDrawTwice)).v 0xf ≠ 1 := by
  decide

/-- Claim C7 (amended): when the instruction's X and Y operand registers are
not the flag register 0xF (which the first draw overwrites), drawing the
same sprite twice restores every display pixel, and the second draw sets
vf to 1 exactly when the first draw turned some pixel on. -/
theorem c7_double_draw_amended (s : Emu)
    (hx : (s.opcode &&& 0x0f00) >>> 8 ≠ 0xf)
    (hy : (s.opcode &&& 0x00f0) >>> 4 ≠ 0xf) :
    (∀ a b, (execute_opcode_dxyn (execute_opcode_dxyn s)).gfx a b = s.gfx a b) ∧
    ((execute_opcode_dxyn (execute_opcode_dxyn s)).v 0xf =
      if spriteNewlyLit s then 1 else 0) := by
  obtain ⟨hg1, hd1, hf1, hv1, hram1, hri1, hpc1, hop1, hk1, hdt1, hst1, hsp1, hstk1, hrom1⟩ :=
    dxyn_spec s
  obtain ⟨hg2, hd2, hf2, hv2, _⟩ := dxyn_spec (execute_opcode_dxyn s)
  have hvx : (execute_opcode_dxyn s).v ((s.opcode &&& 0x0f00) >>> 8) =
      s.v ((s.opcode &&& 0x0f00) >>> 8) := hv1 _ hx
  have hvy : (execute_opcode_dxyn s).v ((s.opcode &&& 0x00f0) >>> 4) =
      s.v ((s.opcode &&& 0x00f0) >>> 4) := hv1 _ hy
  have hColl : spriteCollision (execute_opcode_dxyn s) = spriteNewlyLit s := by
    unfold spriteCollision spriteNewlyLit
    rw [hop1, hram1, hri1, hvx, hvy]
    refine anyCongr (fun yo hyo => anyCongr (fun xo hxo => ?_))
    rcases Bool.eq_false_or_eq_true
        (s.ram (s.ram_idx + yo) &&& (128 >>> xo) != 0) with hbit | hbit
    · have hhit : spriteHit s
          ((s.v ((s.opcode &&& 0x0f00) >>> 8) + xo) % GFX_W)
          ((s.v ((s.opcode &&& 0x00f0) >>> 4) + yo) % GFX_H) = true := by
        unfold spriteHit
        rw [List.any_eq_true]
        refine ⟨yo, hyo, ?_⟩
        rw [List.any_eq_true]
        exact ⟨xo, hxo, by simp [hbit]⟩
      rw [hg1, hhit, hbit]
      cases s.gfx ((s.v ((s.opcode &&& 0x0f00) >>> 8) + xo) % GFX_W)
          ((s.v ((s.opcode &&& 0x00f0) >>> 4) + yo) % GFX_H) <;> rfl
    · rw [hbit]
      simp
  have hHit : ∀ a b, spriteHit (execute_opcode_dxyn s) a b = spriteHit s a b := by
    intro a b
    unfold spriteHit
    rw [hop1, hram1, hri1, hvx, hvy]
  constructor
  · intro a b
    rw [hg2 a b, hHit a b, hg1 a b]
    cases s.gfx a b <;> cases spriteHit s a b <;> rfl
  · rw [hf2, hColl]

/-- Witness for C7 at a state drawing one solid row (instruction 0xD121,
sprite byte 0xff): the operand registers 1 and 2 are not 0xF. -/
theorem c7_double_draw_witness :
    (∀ a b, (execute_opcode_dxyn (execute_opcode_dxyn emuDrawSprite)).gfx a b =
      emuDrawSprite.gfx a b) ∧
    ((execute_opcode_dxyn (execute_opcode_dxyn emuDrawSprite)).v 0xf =
      if spriteNewlyLit emuDrawSprite then 1 else 0) :=
  c7_double_draw_amended emuDrawSprite (by decide) (by decide)

/-- Claim C8: for a state with stack pointer below 16, the call instruction
(0x2NNN) pushes the current pc (not pc + 2) at stack[sp], increments sp,
and jumps to the 12-bit target; executing a return (0x00EE) immediately
afterwards restores sp and leaves pc at the call site plus 2. -/
theorem c8_call_return (s : Emu) (h : s.sp < STACK_SIZE) :
    (execute_opcode_2nnn s).stack s.sp = s.pc ∧
    (execute_opcode_2nnn s).sp = s.sp + 1 ∧
    (execute_opcode_2nnn s).pc = s.opcode &&& 0x0fff ∧
    (execute_opcode_00ee (execute_opcode_2nnn s)).pc = s.pc + 2 ∧
    (execute_opcode_00ee (execute_opcode_2nnn s)).sp = s.sp := by
  simp [execute_opcode_2nnn, execute_opcode_00ee]

/-- Witness for C8 on the blank state (sp = 0 < 16). -/
theorem c8_call_return_witness :
    (execute_opcode_2nnn emuZero).stack emuZero.sp = emuZero.pc ∧
    (execute_opcode_2nnn emuZero).sp = emuZero.sp + 1 ∧
    (execute_opcode_2nnn emuZero).pc = emuZero.opcode &&& 0x0fff ∧
    (execute_opcode_00ee (execute_opcode_2nnn emuZero)).pc = emuZero.pc + 2 ∧
    (execute_opcode_00ee (execute_opcode_2nnn emuZero)).sp = emuZero.sp :=
  c8_call_return emuZero (by decide)

/-- Claim C9: one update_timers call decrements the delay timer by 1 when it
is nonzero and leaves it at 0 otherwise, independently does the same for
the sound timer (so neither goes below 0), and beeping is true exactly
when the sound timer is nonzero. -/
theorem c9_timers (s : Emu) :
    (0 < s.dt → s.update_timers.dt = s.dt - 1) ∧
    (s.dt = 0 → s.update_timers.dt = 0) ∧
    (0 < s.st → s.update_timers.st = s.st - 1) ∧
    (s.st = 0 → s.update_timers.st = 0) ∧
    (s.beeping = true ↔ 0 < s.st) := by
  unfold Emu.update_timers Emu.beeping
  rcases Nat.eq_zero_or_pos s.dt with h1 | h1 <;>
    rcases Nat.eq_zero_or_pos s.st with h2 | h2 <;>
      simp [h1, h2, Nat.pos_iff_ne_zero] <;> omega

/-- Witness for C9 on a state with delay timer 2 and sound timer 0. -/
theorem c9_timers_witness :
    emuTimers.update_timers.dt = emuTimers.dt - 1 ∧
    emuTimers.update_timers.st = 0 :=
  ⟨(c9_timers emuTimers).1 (by decide), (c9_timers emuTimers).2.2.2.1 (by decide)⟩

/-- Claim C10: starting from a fresh machine, after any sequence of host
operations (loading byte-valued ROMs, resets, execute_cycle steps, timer
ticks) that does not fault, the index register holds at most 0xFFF, and
therefore the unchecked u16 addition `ram_idx + v[x]` of the index-add
instruction (0xFX1E) cannot overflow. -/
theorem c10_ram_idx_invariant (ops : List Op)
    (hops : ∀ op ∈ ops, OpBytesBounded op) :
    RamIdxBounded (runOps Emu.new ops) := by
  cases hrun : runOps Emu.new ops with
  | none => exact trivial
  | some s' =>
    obtain ⟨hv, hram, hri, hdt, hst, hrom⟩ := inv_runOps ops hops Emu.new inv_new s' hrun
    exact ⟨hri, fun i _ => by have := hv i; omega⟩

/-- Witness for C10 on the concrete sequence [load a 2-byte rom, one cycle,
one timer tick]. -/
theorem c10_ram_idx_invariant_witness : RamIdxBounded (runOps Emu.new c10ops) :=
  c10_ram_idx_invariant c10ops (by decide)

end Chip8
